import Mathlib

/-!
Verification development for the codex2md event-stream parser
(`src/codex2md/parser.py`, `src/codex2md/utils.py`, `src/codex2md/models.py`).

The Python source is shallowly embedded: JSON values decoded by the stdlib
`json.loads` are modelled by the inductive `Json` (number literals are
modelled as integers; fractional literals do not occur in any statement
below), Python `None` and JSON `null` both map to `Json.null`, and a decoded
input line is a `Except String Json` mirroring the `(record, error)` pair
returned by `safe_json_loads`.  Stateful code is modelled by explicit state
passing over the loop state of `parse_session`.
-/

namespace Codex2md

/-- JSON values as decoded by Python's `json.loads`: objects keep their
key/value pairs in source order (later duplicate keys shadow earlier ones,
as in a Python dict built by the stdlib decoder). -/
inductive Json where
  | null : Json
  | bool : Bool → Json
  | num : Int → Json
  | str : String → Json
  | arr : List Json → Json
  | obj : List (String × Json) → Json

/-- Last binding of key `k`, mirroring Python dict construction where later
duplicate keys overwrite earlier ones. -/
def findLast : List (String × Json) → String → Option Json
  | [], _ => none
  | (k', v) :: rest, k =>
    match findLast rest k with
    | some r => some r
    | none => if k' = k then some v else none

/-- `d.get(k)` on a decoded object: `Json.null` plays the role of Python
`None`, which `dict.get` returns for an absent key. -/
def Json.getD : Json → String → Json
  | .obj kvs, k => (findLast kvs k).getD .null
  | _, _ => .null

/-- `k in d` for a decoded object. -/
def Json.hasKey : Json → String → Bool
  | .obj kvs, k => kvs.any (fun p => p.1 = k)
  | _, _ => false

/-- `isinstance(v, dict)`. -/
def Json.isObj : Json → Bool
  | .obj _ => true
  | _ => false

/-- `v is None` for a decoded value. -/
def Json.isNull : Json → Bool
  | .null => true
  | _ => false

/-- Python `v == s` where `s` is a `str` literal: only a string compares
equal to a string. -/
def jsonEqStr : Json → String → Bool
  | .str s, t => s = t
  | _, _ => false

/-- Python truthiness of a decoded JSON value. -/
def jsonTruthy : Json → Bool
  | .null => false
  | .bool b => b
  | .num n => n ≠ 0
  | .str s => s ≠ ""
  | .arr xs => !xs.isEmpty
  | .obj kvs => !kvs.isEmpty

/-- Left brace character, kept out of string literals. -/
def lbrace : Char := Char.ofNat 123

/-- Right brace character. -/
def rbrace : Char := Char.ofNat 125

mutual
/-- Size of a JSON value (strictly bounds its nesting depth); used as fuel
for the fuel-based recursions below, so that they compute by reduction. -/
def jsonSize : Json → Nat
  | .null => 1
  | .bool _ => 1
  | .num _ => 1
  | .str _ => 1
  | .arr xs => 1 + jsonSizeList xs
  | .obj kvs => 1 + jsonSizeFields kvs

/-- Size of a list of JSON values. -/
def jsonSizeList : List Json → Nat
  | [] => 1
  | v :: rest => 1 + jsonSize v + jsonSizeList rest

/-- Size of the field list of a JSON object. -/
def jsonSizeFields : List (String × Json) → Nat
  | [] => 1
  | (_, v) :: rest => 1 + jsonSize v + jsonSizeFields rest
end

/-- Core of Python `str`/`repr` of a decoded JSON value, recursing on an
explicit fuel so that the definition is structural and computes by
reduction.  Every recursive call descends into a structurally smaller value
while spending one unit of fuel, so a fuel of `jsonSize v` (which strictly
bounds the value's depth) never runs out.  `isRepr` selects `repr`
semantics, which differ from `str` only on strings (the quote/escape
selection inside `repr` of strings is simplified to plain single quotes,
which no statement below depends on). -/
def pyStrCore : Nat → Bool → Json → String
  | 0, _, _ => ""
  | fuel + 1, isRepr, j =>
    match j with
    | .null => "None"
    | .bool true => "True"
    | .bool false => "False"
    | .num n => toString n
    | .str s => if isRepr then "'" ++ s ++ "'" else s
    | .arr xs =>
      "[" ++ String.intercalate ", " (xs.map (pyStrCore fuel true)) ++ "]"
    | .obj kvs =>
      String.singleton lbrace ++
        String.intercalate ", "
          (kvs.map (fun kv => "'" ++ kv.1 ++ "': " ++ pyStrCore fuel true kv.2)) ++
        String.singleton rbrace

/-- Python `str(v)` of a decoded JSON value (`str(None) = "None"`,
`str(True) = "True"`, containers print via `repr`). -/
def pyStr (j : Json) : String := pyStrCore (jsonSize j) false j

/-- Python `repr(v)`; differs from `str` only on strings. -/
def pyRepr (j : Json) : String := pyStrCore (jsonSize j) true j

/-- Python `str.strip()` with no argument: remove leading and trailing
whitespace (modelled over the ASCII whitespace characters that occur in the
inputs considered here). -/
def pyStrip (s : String) : String :=
  String.mk (((s.toList.dropWhile Char.isWhitespace).reverse.dropWhile
    Char.isWhitespace).reverse)

/-- Python `str.split()` with no argument: split on whitespace runs and
discard empty pieces. -/
def pySplitWs (s : String) : List String :=
  (s.split Char.isWhitespace).filter (fun w => w ≠ "")

/-- Decimal digits of a Python `int()` literal, with single underscores
allowed between digits (as in CPython). Accumulates into `acc`. -/
def pyIntDigits : List Char → Nat → Option Nat
  | [], acc => some acc
  | c :: rest, acc =>
    if c.isDigit then pyIntDigits rest (acc * 10 + (c.toNat - '0'.toNat))
    else if c = '_' then
      match rest with
      | d :: rest' =>
        if d.isDigit then pyIntDigits rest' (acc * 10 + (d.toNat - '0'.toNat))
        else none
      | [] => none
    else none

/-- Python `int(s)` on a decimal string: strip whitespace, optional sign,
then digits (raising `ValueError`, i.e. `none`, otherwise). -/
def pyInt (s : String) : Option Int :=
  match (pyStrip s).toList with
  | '-' :: d :: rest =>
    if d.isDigit then (pyIntDigits (d :: rest) 0).map (fun n => -(n : Int))
    else none
  | '+' :: d :: rest =>
    if d.isDigit then (pyIntDigits (d :: rest) 0).map (fun n => (n : Int))
    else none
  | d :: rest =>
    if d.isDigit then (pyIntDigits (d :: rest) 0).map (fun n => (n : Int))
    else none
  | [] => none

/-- A Python `datetime.datetime` value: naive when `offsetMinutes` is
`none`, otherwise aware with a fixed UTC offset in minutes. -/
structure DateTime where
  year : Int
  month : Nat
  day : Nat
  hour : Nat
  minute : Nat
  second : Nat
  microsecond : Nat
  offsetMinutes : Option Int
deriving DecidableEq, Repr

/-- Length of a month, as used by `datetime`'s calendar validation. -/
def daysInMonth (y : Int) (m : Nat) : Nat :=
  if m = 2 then
    if y % 4 = 0 ∧ (y % 100 ≠ 0 ∨ y % 400 = 0) then 29 else 28
  else if m = 4 ∨ m = 6 ∨ m = 9 ∨ m = 11 then 30
  else 31

/-- Python `datetime(year, month, day)`: `some` midnight of that day when
the arguments form a valid calendar date in years 1..9999, `none` when the
constructor would raise `ValueError`. -/
def pyDatetime (y m d : Int) : Option DateTime :=
  if 1 ≤ y ∧ y ≤ 9999 ∧ 1 ≤ m ∧ m ≤ 12 ∧ 1 ≤ d ∧
      d ≤ (daysInMonth y m.toNat : Int) then
    some ⟨y, m.toNat, d.toNat, 0, 0, 0, 0, none⟩
  else none

/-- Read exactly `n` decimal digits from the front of a char list. -/
def readDigits : Nat → List Char → Option (Nat × List Char)
  | 0, cs => some (0, cs)
  | n + 1, c :: cs =>
    if c.isDigit then
      match readDigits n cs with
      | some (v, rest) => some ((c.toNat - '0'.toNat) * 10 ^ n + v, rest)
      | none => none
    else none
  | _ + 1, [] => none

/-- Time-of-day and offset part of `datetime.fromisoformat`:
`HH:MM[:SS[.fff[fff]]][(+|-)HH:MM]`. -/
def parseIsoTime (cs : List Char) :
    Option (Nat × Nat × Nat × Nat × Option Int) := do
  let (h, cs) ← readDigits 2 cs
  match cs with
  | ':' :: cs => do
    let (mi, cs) ← readDigits 2 cs
    let (sec, usec, cs) ←
      match cs with
      | ':' :: cs' =>
        match readDigits 2 cs' with
        | some (s, cs'') =>
          match cs'' with
          | '.' :: cs3 =>
            (match readDigits 6 cs3 with
             | some (u, cs4) => some (s, u, cs4)
             | none =>
               match readDigits 3 cs3 with
               | some (u, cs4) => some (s, u * 1000, cs4)
               | none => none)
          | _ => some (s, 0, cs'')
        | none => none
      | _ => some (0, 0, cs)
    let (off, cs) ←
      match cs with
      | '+' :: cs' =>
        (match readDigits 2 cs' with
         | some (oh, ':' :: cs'') =>
           match readDigits 2 cs'' with
           | some (om, cs3) => some (some ((oh * 60 + om : Nat) : Int), cs3)
           | none => none
         | _ => none)
      | '-' :: cs' =>
        (match readDigits 2 cs' with
         | some (oh, ':' :: cs'') =>
           match readDigits 2 cs'' with
           | some (om, cs3) => some (some (-((oh * 60 + om : Nat) : Int)), cs3)
           | none => none
         | _ => none)
      | [] => some ((none : Option Int), ([] : List Char))
      | _ => none
    if cs = [] ∧ h ≤ 23 ∧ mi ≤ 59 ∧ sec ≤ 59 then
      some (h, mi, sec, usec, off)
    else none
  | _ => none

/-- Python `datetime.fromisoformat`, modelled on the documented
`YYYY-MM-DD[*HH:MM[:SS[.fff[fff]]][(+|-)HH:MM]]` forms that
`datetime.isoformat` emits (the single separator character `*` is
arbitrary). -/
def fromisoformat (s : String) : Option DateTime := do
  let cs := s.toList
  let (y, cs) ← readDigits 4 cs
  match cs with
  | '-' :: cs => do
    let (mo, cs) ← readDigits 2 cs
    match cs with
    | '-' :: cs => do
      let (d, cs) ← readDigits 2 cs
      if 1 ≤ mo ∧ mo ≤ 12 ∧ 1 ≤ d ∧ d ≤ daysInMonth (y : Int) mo then
        match cs with
        | [] => some ⟨(y : Int), mo, d, 0, 0, 0, 0, none⟩
        | _ :: timePart => do
          let (h, mi, sec, usec, off) ← parseIsoTime timePart
          some ⟨(y : Int), mo, d, h, mi, sec, usec, off⟩
      else none
    | _ => none
  | _ => none

/-- `utils.parse_timestamp`: `None` unless the value is a truthy string;
strip it, rewrite a trailing `Z` to `+00:00`, and try `fromisoformat`,
returning `None` on failure. -/
def parse_timestamp (v : Json) : Option DateTime :=
  match v with
  | .str s =>
    if s = "" then none
    else
      let text := pyStrip s
      if text = "" then none
      else
        let text :=
          if text.endsWith "Z" then text.dropRight 1 ++ "+00:00" else text
        fromisoformat text
  | _ => none

/-- `utils.parse_date_from_path`, with the path given by its segments
(`Path.parts`): read `parts[-4]`, `parts[-3]`, `parts[-2]` as
year/month/day integers, range-check month 1–12 and day 1–31. -/
def parse_date_from_path (parts : List String) : Option (Int × Int × Int) :=
  if parts.length < 4 then none
  else
    let rev := parts.reverse
    match rev.get? 3, rev.get? 2, rev.get? 1 with
    | some ys, some ms, some ds =>
      match pyInt ys, pyInt ms, pyInt ds with
      | some year, some month, some day =>
        if 1 ≤ month ∧ month ≤ 12 ∧ 1 ≤ day ∧ day ≤ 31 then
          some (year, month, day)
        else none
      | _, _, _ => none
    | _, _, _ => none

/-- `utils.coerce_text`: `None` stays `None`, strings pass through, any
other value is stringified. -/
def coerce_text (v : Json) : Option String :=
  match v with
  | .null => none
  | .str s => some s
  | v => some (pyStr v)

/-- JSON insignificant whitespace. -/
def skipWs (cs : List Char) : List Char :=
  cs.dropWhile (fun c => c = ' ' ∨ c = '\t' ∨ c = '\n' ∨ c = '\r')

/-- Four hex digits of a `\uXXXX` escape. -/
def readHex4 : List Char → Option (Nat × List Char)
  | a :: b :: c :: d :: rest =>
    let hv : Char → Option Nat := fun ch =>
      if ch.isDigit then some (ch.toNat - '0'.toNat)
      else if 'a' ≤ ch ∧ ch ≤ 'f' then some (ch.toNat - 'a'.toNat + 10)
      else if 'A' ≤ ch ∧ ch ≤ 'F' then some (ch.toNat - 'A'.toNat + 10)
      else none
    match hv a, hv b, hv c, hv d with
    | some x, some y, some z, some w =>
      some (((x * 16 + y) * 16 + z) * 16 + w, rest)
    | _, _, _, _ => none
  | _ => none

/-- Body of a JSON string literal after the opening quote (escape handling
per the JSON grammar; `\uXXXX` taken as a single code point). -/
def parseJsonString : Nat → List Char → Option (String × List Char)
  | 0, _ => none
  | _ + 1, [] => none
  | fuel + 1, c :: rest =>
    if c = '"' then some ("", rest)
    else if c = '\\' then
      match rest with
      | [] => none
      | e :: rest' =>
        let dec : Option (Char × List Char) :=
          if e = '"' then some ('"', rest')
          else if e = '\\' then some ('\\', rest')
          else if e = '/' then some ('/', rest')
          else if e = 'b' then some (Char.ofNat 8, rest')
          else if e = 'f' then some (Char.ofNat 12, rest')
          else if e = 'n' then some ('\n', rest')
          else if e = 'r' then some ('\r', rest')
          else if e = 't' then some ('\t', rest')
          else if e = 'u' then
            match readHex4 rest' with
            | some (n, rest'') => some (Char.ofNat n, rest'')
            | none => none
          else none
        match dec with
        | some (ch, rest'') =>
          match parseJsonString fuel rest'' with
          | some (s, rem) => some (String.singleton ch ++ s, rem)
          | none => none
        | none => none
    else if c.toNat < 32 then none
    else
      match parseJsonString fuel rest with
      | some (s, rem) => some (String.singleton c ++ s, rem)
      | none => none

/-- A JSON integer literal (optional minus, no leading zeros). A literal
continuing with a fraction or exponent is rejected: such floating-point
literals are outside this model. -/
def parseJsonNumber (cs : List Char) : Option (Json × List Char) :=
  let core : List Char → Option (Nat × List Char) := fun cs =>
    match cs with
    | '0' :: rest => some (0, rest)
    | c :: _ =>
      if c.isDigit then
        let digits := cs.takeWhile Char.isDigit
        let rest := cs.dropWhile Char.isDigit
        some (digits.foldl (fun a c => a * 10 + (c.toNat - '0'.toNat)) 0, rest)
      else none
    | [] => none
  let signed : Option (Int × List Char) :=
    match cs with
    | '-' :: rest =>
      match core rest with
      | some (n, rem) => some (-(n : Int), rem)
      | none => none
    | _ =>
      match core cs with
      | some (n, rem) => some ((n : Int), rem)
      | none => none
  match signed with
  | some (n, rem) =>
    match rem with
    | c :: _ => if c = '.' ∨ c = 'e' ∨ c = 'E' then none else some (.num n, rem)
    | [] => some (.num n, [])
  | none => none

/-- Position of the recursive-descent JSON parser: a whole value, an object
body just after its opening brace, the continuation of an object after a
first member was accumulated, an array body just after its opening bracket,
or the continuation of an array. -/
inductive JsonParseMode where
  | value : JsonParseMode
  | objBody : JsonParseMode
  | objMembers : List (String × Json) → JsonParseMode
  | arrBody : JsonParseMode
  | arrItems : List Json → JsonParseMode

/-- Recursive-descent JSON parser, structural on an explicit fuel so that
it computes by reduction.  At least every second recursive call consumes an
input character first, so the fuel passed by `pyJsonLoads` (twice the input
length plus a constant) never runs out on any input. -/
def parseJsonCore : Nat → JsonParseMode → List Char →
    Option (Json × List Char)
  | 0, _, _ => none
  | fuel + 1, .value, cs =>
    (match skipWs cs with
     | [] => none
     | c :: rest =>
       if c = '"' then
         match parseJsonString (rest.length + 1) rest with
         | some (s, rem) => some (.str s, rem)
         | none => none
       else if c = lbrace then parseJsonCore fuel .objBody rest
       else if c = '[' then parseJsonCore fuel .arrBody rest
       else if c = 't' then
         match rest with
         | 'r' :: 'u' :: 'e' :: rem => some (.bool true, rem)
         | _ => none
       else if c = 'f' then
         match rest with
         | 'a' :: 'l' :: 's' :: 'e' :: rem => some (.bool false, rem)
         | _ => none
       else if c = 'n' then
         match rest with
         | 'u' :: 'l' :: 'l' :: rem => some (.null, rem)
         | _ => none
       else parseJsonNumber (c :: rest))
  | fuel + 1, .objBody, cs =>
    (match skipWs cs with
     | c :: rest =>
       if c = rbrace then some (.obj [], rest)
       else if c = '"' then
         match parseJsonString (rest.length + 1) rest with
         | some (k, rem) =>
           (match skipWs rem with
            | ':' :: rem' =>
              match parseJsonCore fuel .value rem' with
              | some (v, rem'') => parseJsonCore fuel (.objMembers [(k, v)]) rem''
              | none => none
            | _ => none)
         | none => none
       else none
     | [] => none)
  | fuel + 1, .objMembers acc, cs =>
    (match skipWs cs with
     | c :: rest =>
       if c = rbrace then some (.obj acc.reverse, rest)
       else if c = ',' then
         match skipWs rest with
         | '"' :: rest' =>
           (match parseJsonString (rest'.length + 1) rest' with
            | some (k, rem) =>
              (match skipWs rem with
               | ':' :: rem' =>
                 (match parseJsonCore fuel .value rem' with
                  | some (v, rem'') =>
                    parseJsonCore fuel (.objMembers ((k, v) :: acc)) rem''
                  | none => none)
               | _ => none)
            | none => none)
         | _ => none
       else none
     | [] => none)
  | fuel + 1, .arrBody, cs =>
    (match skipWs cs with
     | c :: _ =>
       if c = ']' then some (.arr [], (skipWs cs).tail)
       else
         match parseJsonCore fuel .value cs with
         | some (v, rem) => parseJsonCore fuel (.arrItems [v]) rem
         | none => none
     | [] => none)
  | fuel + 1, .arrItems acc, cs =>
    (match skipWs cs with
     | c :: rest =>
       if c = ']' then some (.arr acc.reverse, rest)
       else if c = ',' then
         match parseJsonCore fuel .value rest with
         | some (v, rem) => parseJsonCore fuel (.arrItems (v :: acc)) rem
         | none => none
       else none
     | [] => none)

/-- Python stdlib `json.loads` on a text: `some` the decoded value when the
whole text is one JSON document, `none` when it raises `JSONDecodeError`
(floating-point literals are treated as out of the model's scope). -/
def pyJsonLoads (s : String) : Option Json :=
  let cs := s.toList
  match parseJsonCore (2 * cs.length + 4) .value cs with
  | some (j, rem) => if skipWs rem = [] then some j else none
  | none => none

/-- Escape one character for `json.dumps(..., ensure_ascii=True)`. -/
def jsonEscapeChar (c : Char) : String :=
  if c = '"' then "\\\""
  else if c = '\\' then "\\\\"
  else if c = '\n' then "\\n"
  else if c = '\r' then "\\r"
  else if c = '\t' then "\\t"
  else if c = Char.ofNat 8 then "\\b"
  else if c = Char.ofNat 12 then "\\f"
  else if c.toNat < 32 ∨ c.toNat ≥ 127 then
    let hex : Nat → Char := fun n =>
      if n < 10 then Char.ofNat ('0'.toNat + n) else Char.ofNat ('a'.toNat + n - 10)
    let n := c.toNat % 65536
    "\\u" ++ String.mk [hex (n / 4096), hex (n / 256 % 16), hex (n / 16 % 16), hex (n % 16)]
  else String.singleton c

/-- A JSON string literal as emitted by `json.dumps(..., ensure_ascii=True)`
(code points above the BMP, which do not occur here, are not split into
surrogate pairs). -/
def jsonQuote (s : String) : String :=
  "\"" ++ String.join (s.toList.map jsonEscapeChar) ++ "\""

/-- Indentation prefix at nesting `level` for `indent=2`. -/
def jsonIndent (level : Nat) : String := String.mk (List.replicate (2 * level) ' ')

/-- Core of `json.dumps(v, indent=2, ensure_ascii=True)` at nesting
`level`, structural on an explicit fuel so that it computes by reduction;
every recursive call descends into a structurally smaller value, so a fuel
of `jsonSize v` never runs out. -/
def jsonDumpsCore : Nat → Json → Nat → String
  | 0, _, _ => ""
  | fuel + 1, j, level =>
    match j with
    | .null => "null"
    | .bool true => "true"
    | .bool false => "false"
    | .num n => toString n
    | .str s => jsonQuote s
    | .arr [] => "[]"
    | .arr (x :: xs) =>
      "[\n" ++ jsonIndent (level + 1) ++
        String.intercalate (",\n" ++ jsonIndent (level + 1))
          ((x :: xs).map (fun v => jsonDumpsCore fuel v (level + 1))) ++
        "\n" ++ jsonIndent level ++ "]"
    | .obj [] => String.singleton lbrace ++ String.singleton rbrace
    | .obj (kv :: kvs) =>
      String.singleton lbrace ++ "\n" ++ jsonIndent (level + 1) ++
        String.intercalate (",\n" ++ jsonIndent (level + 1))
          ((kv :: kvs).map
            (fun kv => jsonQuote kv.1 ++ ": " ++ jsonDumpsCore fuel kv.2 (level + 1))) ++
        "\n" ++ jsonIndent level ++ String.singleton rbrace

/-- `json.dumps(v, indent=2, ensure_ascii=True)`. -/
def jsonDumps (v : Json) : String := jsonDumpsCore (jsonSize v) v 0

theorem jsonSize_findLast {kvs : List (String × Json)} {k : String} {v : Json}
    (h : findLast kvs k = some v) : jsonSize v < jsonSizeFields kvs := by
  induction kvs with
  | nil => simp [findLast] at h
  | cons p rest ih =>
    obtain ⟨k', v'⟩ := p
    cases hf : findLast rest k with
    | some r =>
      simp only [findLast, hf, Option.some.injEq] at h
      subst h
      have hr := ih hf
      simp only [jsonSizeFields]
      omega
    | none =>
      simp only [findLast, hf] at h
      split at h
      · simp only [Option.some.injEq] at h
        subst h
        simp only [jsonSizeFields]
        omega
      · simp at h

theorem one_le_jsonSizeFields (l : List (String × Json)) :
    1 ≤ jsonSizeFields l := by
  cases l with
  | nil => simp [jsonSizeFields]
  | cons a r =>
    obtain ⟨k, v⟩ := a
    simp only [jsonSizeFields]
    omega

theorem jsonSize_getD_lt (kvs : List (String × Json)) (k : String) :
    jsonSize (Json.getD (.obj kvs) k) < jsonSize (Json.obj kvs) := by
  simp only [Json.getD]
  cases hf : findLast kvs k with
  | some v =>
    have h1 := jsonSize_findLast hf
    simp only [Option.getD, jsonSize]
    omega
  | none =>
    have h1 := one_le_jsonSizeFields kvs
    simp only [Option.getD, jsonSize]
    omega

/-- Core of `parser._normalize_content_blocks`, structural on an explicit
fuel so that it computes by reduction.  Every recursive call descends into
a value of strictly smaller `jsonSize` (a field looked up inside the
current value, see `jsonSize_getD_lt`), so a fuel of `jsonSize c` never
runs out. -/
def normCBCore : Nat → Json → Option String
  | 0, _ => none
  | fuel + 1, c =>
    match c with
    | .null => none
    | .str s => some s
    | .obj kvs =>
      if (Json.obj kvs).hasKey "text" then
        coerce_text ((Json.obj kvs).getD "text")
      else if (Json.obj kvs).hasKey "content" then
        normCBCore fuel ((Json.obj kvs).getD "content")
      else none
    | .arr blocks =>
      let parts := blocks.filterMap (fun block =>
        match block with
        | .str s => some s
        | .obj kvs =>
          (match Json.getD (.obj kvs) "text" with
           | .null =>
             if (Json.obj kvs).hasKey "content" then
               normCBCore fuel ((Json.obj kvs).getD "content")
             else none
           | v => some (pyStr v))
        | _ => none)
      if parts.isEmpty then none else some (String.join parts)
    | _ => none

/-- `parser._normalize_content_blocks`: `None` stays `None`, a bare string
passes through, a mapping yields its `text` field (coerced) when the key is
present, else recurses into its `content` field when that key is present; a
sequence concatenates the texts extracted from its blocks (a string block
passes through; a mapping block yields `str` of its `text` value, or, when
`text` is absent/`None` and `content` is present, the recursive extraction
of `content`; other blocks are skipped), yielding `None` when no part was
extracted; any other shape yields `None`. -/
def _normalize_content_blocks (c : Json) : Option String :=
  normCBCore (jsonSize c) c

/-- `parser._extract_message_text`: normalize the `content` field, falling
back to `text` when `content` is absent or `None`. -/
def _extract_message_text (payload : Json) : Option String :=
  let content := payload.getD "content"
  let content := if content.isNull then payload.getD "text" else content
  _normalize_content_blocks content

/-- `parser._extract_reasoning_summary`: when `summary` is a list, collect
`str` of each block's `text` (falling back to `summary_text`) and each bare
string block; otherwise `[text]` when `text` is a string, else `[]`. -/
def _extract_reasoning_summary (payload : Json) : List String :=
  match payload.getD "summary" with
  | .arr blocks =>
    blocks.filterMap (fun block =>
      match block with
      | .obj kvs =>
        (match Json.getD (.obj kvs) "text" with
         | .null =>
           (match Json.getD (.obj kvs) "summary_text" with
            | .null => none
            | v => some (pyStr v))
         | v => some (pyStr v))
      | .str s => some s
      | _ => none)
  | _ =>
    match payload.getD "text" with
    | .str s => [s]
    | _ => []

/-- `parser._extract_event_user_message`: take `message` (falling back to
`text`); a mapping yields its normalized `content`, a list is normalized as
content blocks, a string passes through, anything else yields `None`. -/
def _extract_event_user_message (payload : Json) : Option String :=
  let message := payload.getD "message"
  let message := if message.isNull then payload.getD "text" else message
  match message with
  | .obj kvs => _normalize_content_blocks (Json.getD (.obj kvs) "content")
  | .arr xs => _normalize_content_blocks (.arr xs)
  | .str s => some s
  | _ => none

/-- `parser._format_jsonish`: `None` stays `None`; a non-blank string is
tried as embedded JSON and pretty-printed when it parses, passed through
unchanged when it does not; blank strings pass through; mappings and
sequences are always pretty-printed; other scalars are stringified. -/
def _format_jsonish (v : Json) : Option String :=
  match v with
  | .null => none
  | .str s =>
    let text := pyStrip s
    if text ≠ "" then
      match pyJsonLoads text with
      | some parsed => some (jsonDumps parsed)
      | none => some s
    else some s
  | .arr xs => some (jsonDumps (.arr xs))
  | .obj kvs => some (jsonDumps (.obj kvs))
  | v => some (pyStr v)

/-- `parser._unwrap_payload`: replace a mapping payload that lacks `type`
but carries a nested mapping `payload` by that nested mapping (one level
only). -/
def _unwrap_payload (payload : Json) : Json :=
  match payload with
  | .obj kvs =>
    if !(Json.obj kvs).hasKey "type" ∧ (Json.obj kvs).hasKey "payload" then
      match (Json.obj kvs).getD "payload" with
      | .obj nested => .obj nested
      | _ => .obj kvs
    else .obj kvs
  | v => v

/-- `parser._make_preview`: collapse whitespace runs and truncate to
`limit` characters with a `...` suffix. -/
def _make_preview (text : String) (limit : Nat) : String :=
  let trimmed := String.intercalate " " (pySplitWs (pyStrip text))
  if trimmed.length ≤ limit then trimmed
  else trimmed.take (limit - 3) ++ "..."

/-- The `Event` union of `models.py`. `tool` carries, in order: name,
arguments, call id, output, invocation timestamp, invocation line,
output timestamp, output line. -/
inductive Event where
  | message : String → String → String → Option DateTime → Nat → Event
  | tool : Option String → Option String → Option String → Option String →
      Option DateTime → Nat → Option DateTime → Option Nat → Event
  | reasoning : List String → Option DateTime → Nat → Event
  | malformed : String → Option DateTime → Nat → Event
deriving DecidableEq, Repr

/-- The local state of the `parse_session` loop. `tool_calls` maps a call
id to the position, in `events`, of the `ToolEvent` object it aliases in
the Python code (a later binding for the same id shadows an earlier one,
like the dict assignment it models); `seen_message_texts` is the
de-duplication set. -/
structure LoopState where
  warnings : List String
  events : List Event
  tool_calls : List (String × Nat)
  session_id : Option String
  started_at : Option DateTime
  cwd : Option String
  repo_url : Option String
  branch : Option String
  commit_hash : Option String
  cli_version : Option String
  originator : Option String
  ghost_commit : Option String
  seen_message_texts : List String
deriving DecidableEq, Repr

/-- The state at the top of `parse_session`. -/
def initLoopState : LoopState :=
  ⟨[], [], [], none, none, none, none, none, none, none, none, none, []⟩

/-- The `Session` dataclass of `models.py`, with the source path given by
its segments. -/
structure Session where
  path : List String
  session_id : Option String
  started_at : Option DateTime
  cwd : Option String
  repo_url : Option String
  branch : Option String
  commit_hash : Option String
  cli_version : Option String
  originator : Option String
  ghost_commit : Option String
  events : List Event
  parse_warnings : List String
deriving DecidableEq, Repr

/-- `set.add` on the de-duplication set (membership-only model of a Python
set of strings). -/
def addSeen (seen : List String) (t : String) : List String :=
  if t ∈ seen then seen else t :: seen

/-- First binding of a call id (the most recent `tool_calls[call_id] = ...`
assignment, since new bindings are consed on). -/
def lookupCallId : List (String × Nat) → String → Option Nat
  | [], _ => none
  | (c, idx) :: rest, k => if c = k then some idx else lookupCallId rest k

/-- The Python test `call_id and call_id in tool_calls`, returning the
indexed event position when it holds. -/
def callIdMatch (tc : List (String × Nat)) : Option String → Option Nat
  | some c => if c ≠ "" then lookupCallId tc c else none
  | none => none

/-- Replace the element at position `i` (out-of-range positions leave the
list unchanged); models mutating the aliased `ToolEvent` object. -/
def listModify : List Event → Nat → (Event → Event) → List Event
  | [], _, _ => []
  | e :: rest, 0, f => f e :: rest
  | e :: rest, n + 1, f => e :: listModify rest n f

/-- The output-merging assignment of the `function_call_output` branch:
concatenate after a truthy existing output with the visible separator,
otherwise store the new output directly. -/
def mergedOutput (old out : Option String) : Option String :=
  match old with
  | some s => if s ≠ "" then some (s ++ "\n\n---\n\n" ++ out.getD "") else out
  | none => out

/-- Mutation applied to the pending `ToolEvent` by a matching
`function_call_output` record: merge the output and stamp the output
timestamp and line. -/
def applyOutput (out : Option String) (ts : Option DateTime) (ln : Nat) :
    Event → Event
  | .tool name args cid old t l _ _ =>
    .tool name args cid (mergedOutput old out) t l ts (some ln)
  | e => e

/-- The `role` expression of the `message` branch:
`coerce_text(payload.get("role")) or "unknown"`. -/
def messageRole (payload : Json) : String :=
  match coerce_text (payload.getD "role") with
  | some s => if s = "" then "unknown" else s
  | none => "unknown"

/-- The `session_meta` branch of `parse_session`: populate every metadata
field from the payload; git sub-fields only when `git` is a mapping, with
`commit_hash` falling back to `commit`. -/
def handleSessionMeta (st : LoopState) (payload : Json) : LoopState :=
  let git := payload.getD "git"
  let st := { st with
    session_id := coerce_text (payload.getD "id")
    started_at := parse_timestamp (payload.getD "timestamp")
    cwd := coerce_text (payload.getD "cwd")
    originator := coerce_text (payload.getD "originator")
    cli_version := coerce_text (payload.getD "cli_version") }
  if git.isObj then
    { st with
      repo_url := coerce_text (git.getD "repository_url")
      branch := coerce_text (git.getD "branch")
      commit_hash :=
        match coerce_text (git.getD "commit_hash") with
        | some c => some c
        | none => coerce_text (git.getD "commit") }
  else st

/-- The `turn_context` branch: backfill `cwd` only when still unset. -/
def handleTurnContext (st : LoopState) (payload : Json) : LoopState :=
  if st.cwd = none then { st with cwd := coerce_text (payload.getD "cwd") }
  else st

/-- The malformed-`response_item` path: warning plus `MalformedEvent`. -/
def malformedResponseItem (st : LoopState) (i : Nat) (ts : Option DateTime) :
    LoopState :=
  { st with
    warnings := st.warnings ++ [s!"line {i}: response_item payload not a dict"]
    events := st.events ++
      [.malformed s!"Skipped malformed response_item at line {i}" ts i] }

/-- The `message` item branch: non-empty extracted text emits a
`MessageEvent` (adding user text to the de-duplication set first); empty or
unextractable text emits a warning and a `MalformedEvent`. -/
def handleRIMessage (st : LoopState) (i : Nat) (ts : Option DateTime)
    (payload : Json) : LoopState :=
  let role := messageRole payload
  match _extract_message_text payload with
  | some t =>
    if t ≠ "" then
      let seen := if role = "user" then addSeen st.seen_message_texts t
        else st.seen_message_texts
      { st with
        events := st.events ++ [.message role t "response_item" ts i]
        seen_message_texts := seen }
    else
      { st with
        warnings := st.warnings ++ [s!"line {i}: message without text"]
        events := st.events ++ [.malformed s!"Skipped empty message at line {i}" ts i] }
  | none =>
    { st with
      warnings := st.warnings ++ [s!"line {i}: message without text"]
      events := st.events ++ [.malformed s!"Skipped empty message at line {i}" ts i] }

/-- The `function_call` item branch: always append a `ToolEvent`; index it
by call id when the id is truthy. -/
def handleRIFunctionCall (st : LoopState) (i : Nat) (ts : Option DateTime)
    (payload : Json) : LoopState :=
  let call_id := coerce_text (payload.getD "call_id")
  let name := coerce_text (payload.getD "name")
  let arguments := _format_jsonish (payload.getD "arguments")
  let idx := st.events.length
  { st with
    events := st.events ++ [.tool name arguments call_id none ts i none none]
    tool_calls :=
      match call_id with
      | some c => if c ≠ "" then (c, idx) :: st.tool_calls else st.tool_calls
      | none => st.tool_calls }

/-- The `function_call_output` item branch: merge into the pending
`ToolEvent` when the call id matches, otherwise append an orphaned
`ToolEvent` and a warning. -/
def handleRIFunctionCallOutput (st : LoopState) (i : Nat)
    (ts : Option DateTime) (payload : Json) : LoopState :=
  let call_id := coerce_text (payload.getD "call_id")
  let output := _format_jsonish (payload.getD "output")
  match callIdMatch st.tool_calls call_id with
  | some idx =>
    { st with events := listModify st.events idx (applyOutput output ts i) }
  | none =>
    { st with
      warnings := st.warnings ++ [s!"line {i}: tool output without call"]
      events := st.events ++ [.tool none none call_id output ts i none none] }

/-- The `reasoning` item branch: non-empty summary emits a
`ReasoningEvent`. -/
def handleRIReasoning (st : LoopState) (i : Nat) (ts : Option DateTime)
    (payload : Json) : LoopState :=
  let summary := _extract_reasoning_summary payload
  if summary ≠ [] then
    { st with events := st.events ++ [.reasoning summary ts i] }
  else st

/-- Dispatch on the inner `type` of a (double-unwrapped) `response_item`
payload; unknown inner types are silently ignored. -/
def handleResponseItemInner (st : LoopState) (i : Nat) (ts : Option DateTime)
    (payload : Json) : LoopState :=
  let item_type := payload.getD "type"
  if jsonEqStr item_type "message" then handleRIMessage st i ts payload
  else if jsonEqStr item_type "function_call" then
    handleRIFunctionCall st i ts payload
  else if jsonEqStr item_type "function_call_output" then
    handleRIFunctionCallOutput st i ts payload
  else if jsonEqStr item_type "reasoning" then
    handleRIReasoning st i ts payload
  else if jsonEqStr item_type "ghost_snapshot" then
    { st with ghost_commit := coerce_text (payload.getD "ghost_commit") }
  else st

/-- The `response_item` branch: a non-mapping payload (before or after the
defensive second unwrap) is malformed; otherwise dispatch on the inner
type. -/
def handleResponseItem (st : LoopState) (i : Nat) (ts : Option DateTime)
    (payload : Json) : LoopState :=
  match payload with
  | .obj kvs =>
    (match _unwrap_payload (.obj kvs) with
     | .obj kvs' => handleResponseItemInner st i ts (.obj kvs')
     | _ => malformedResponseItem st i ts)
  | _ => malformedResponseItem st i ts

/-- The truthy-item filter of the `agent_reasoning` list case:
`[str(item) for item in text if item]`. -/
def agentReasoningSummary (items : List Json) : List String :=
  items.filterMap (fun item => if jsonTruthy item then some (pyStr item) else none)

/-- The `event_msg` branch: `user_message` emits a user `MessageEvent` when
the extracted text is non-empty and not in the de-duplication set;
`agent_reasoning` emits a `ReasoningEvent` from a string or list text;
anything else (including a non-mapping payload) is ignored. -/
def handleEventMsg (st : LoopState) (i : Nat) (ts : Option DateTime)
    (payload : Json) : LoopState :=
  match payload with
  | .obj _ =>
    let payload_type := payload.getD "type"
    if jsonEqStr payload_type "user_message" then
      match _extract_event_user_message payload with
      | some t =>
        if t ≠ "" ∧ t ∉ st.seen_message_texts then
          { st with events := st.events ++ [.message "user" t "event_msg" ts i] }
        else st
      | none => st
    else if jsonEqStr payload_type "agent_reasoning" then
      match payload.getD "text" with
      | .str s => { st with events := st.events ++ [.reasoning [s] ts i] }
      | .arr items =>
        let summary := agentReasoningSummary items
        if summary ≠ [] then
          { st with events := st.events ++ [.reasoning summary ts i] }
        else st
      | _ => st
    else st
  | _ => st

/-- One iteration of the `parse_session` loop on the decode result of line
`i`: a decode failure records a warning and a `MalformedEvent`; a
non-mapping record is skipped; otherwise dispatch on the record type
(unknown top-level types are ignored). -/
def processRecord (st : LoopState) (i : Nat) (r : Except String Json) :
    LoopState :=
  match r with
  | .error _ =>
    { st with
      warnings := st.warnings ++ [s!"line {i}: invalid json"]
      events := st.events ++ [.malformed s!"Invalid JSON at line {i}" none i] }
  | .ok record =>
    match record with
    | .obj _ =>
      let record_type := record.getD "type"
      let ts := parse_timestamp (record.getD "timestamp")
      let payload := _unwrap_payload (record.getD "payload")
      if jsonEqStr record_type "session_meta" ∧ payload.isObj then
        handleSessionMeta st payload
      else if jsonEqStr record_type "turn_context" ∧ payload.isObj then
        handleTurnContext st payload
      else if jsonEqStr record_type "response_item" then
        handleResponseItem st i ts payload
      else if jsonEqStr record_type "event_msg" then
        handleEventMsg st i ts payload
      else st
    | _ => st

/-- The `parse_session` loop over the decoded lines, numbering from `i`. -/
def runLoop : LoopState → Nat → List (Except String Json) → LoopState
  | st, _, [] => st
  | st, i, r :: rest => runLoop (processRecord st i r) (i + 1) rest

/-- `parser.parse_session`, with the file given by its path segments and
the decode result of each line actually read.  An I/O failure after opening
the file is modelled by the stream ending at the failed read with
`readError = some message`: the `except OSError` handler appends a warning
and the partial state is kept (the function is total, so the failure never
propagates).  The post-pass warns when no `session_meta` was seen and
derives a missing start timestamp from the path-embedded date, leaving it
unset when `datetime` would raise on an invalid calendar date. -/
def parse_session (parts : List String) (lines : List (Except String Json))
    (readError : Option String) : Session :=
  let st := runLoop initLoopState 1 lines
  let warnings := st.warnings ++
    (match readError with
     | some msg => [s!"failed to read file: {msg}"]
     | none => [])
  let warnings :=
    if st.session_id = none then warnings ++ ["session_meta missing"]
    else warnings
  let started_at :=
    match st.started_at with
    | some t => some t
    | none =>
      match parse_date_from_path parts with
      | some (y, m, d) => pyDatetime y m d
      | none => none
  { path := parts
    session_id := st.session_id
    started_at := started_at
    cwd := st.cwd
    repo_url := st.repo_url
    branch := st.branch
    commit_hash := st.commit_hash
    cli_version := st.cli_version
    originator := st.originator
    ghost_commit := st.ghost_commit
    events := st.events
    parse_warnings := warnings }

/-- The `_FastMeta` dataclass of `parser.py`. -/
structure _FastMeta where
  session_id : Option String
  started_at : Option DateTime
  cwd : Option String
  repo_url : Option String
  branch : Option String
  originator : Option String
  cli_version : Option String
deriving DecidableEq, Repr

/-- All-unset fast-scan metadata. -/
def initFastMeta : _FastMeta := ⟨none, none, none, none, none, none, none⟩

/-- The loop state of `extract_metadata_and_preview_fast`: metadata, the
preview, the number of warnings appended so far, and the response-item user
texts already seen. -/
structure FastState where
  meta : _FastMeta
  preview : Option String
  warningsCount : Nat
  seen : List String
deriving DecidableEq, Repr

/-- The state at the top of the fast scan. -/
def initFastState : FastState := ⟨initFastMeta, none, 0, []⟩

/-- One iteration of the `extract_metadata_and_preview_fast` loop on the
decode result of line `i` (the bound is checked by `fastLoop`). -/
def fastStep (st : FastState) (r : Except String Json) : FastState :=
  match r with
  | .error _ => { st with warningsCount := st.warningsCount + 1 }
  | .ok record =>
    match record with
    | .obj _ =>
      let record_type := record.getD "type"
      let payload := _unwrap_payload (record.getD "payload")
      if jsonEqStr record_type "session_meta" ∧ payload.isObj then
        let git := payload.getD "git"
        let meta : _FastMeta :=
          { session_id := coerce_text (payload.getD "id")
            started_at := parse_timestamp (payload.getD "timestamp")
            cwd := coerce_text (payload.getD "cwd")
            originator := coerce_text (payload.getD "originator")
            cli_version := coerce_text (payload.getD "cli_version")
            repo_url :=
              if git.isObj then coerce_text (git.getD "repository_url")
              else st.meta.repo_url
            branch :=
              if git.isObj then coerce_text (git.getD "branch")
              else st.meta.branch }
        { st with meta := meta }
      else if jsonEqStr record_type "turn_context" ∧ payload.isObj then
        if st.meta.cwd = none then
          { st with meta := { st.meta with cwd := coerce_text (payload.getD "cwd") } }
        else st
      else if jsonEqStr record_type "response_item" ∧ payload.isObj ∧
          st.preview = none then
        match _unwrap_payload payload with
        | .obj kvs =>
          let p := Json.obj kvs
          if jsonEqStr (p.getD "type") "message" ∧ jsonEqStr (p.getD "role") "user" then
            match _extract_message_text p with
            | some t =>
              if t ≠ "" then
                { st with
                  seen := addSeen st.seen t
                  preview := some (_make_preview t 120) }
              else st
            | none => st
          else st
        | _ => st
      else if jsonEqStr record_type "event_msg" ∧ payload.isObj ∧
          st.preview = none then
        if jsonEqStr (payload.getD "type") "user_message" then
          match _extract_event_user_message payload with
          | some t =>
            if t ≠ "" ∧ t ∉ st.seen then
              { st with preview := some (_make_preview t 120) }
            else st
          | none => st
        else st
      else st
    | _ => st

/-- The bounded fast-scan loop: `break` as soon as the 1-based line number
exceeds `max_lines`. -/
def fastLoop : FastState → Nat → Nat → List (Except String Json) → FastState
  | st, _, _, [] => st
  | st, i, max_lines, r :: rest =>
    if i > max_lines then st
    else fastLoop (fastStep st r) (i + 1) max_lines rest

/-- `parser.extract_metadata_and_preview_fast` (the Python default for
`max_lines` is 500): returns the metadata, the preview, and the warning
count; a read failure (modelled like in `parse_session`) adds one
warning. -/
def extract_metadata_and_preview_fast (lines : List (Except String Json))
    (max_lines : Nat) (readError : Option String) :
    _FastMeta × Option String × Nat :=
  let st := fastLoop initFastState 1 max_lines lines
  let extra := match readError with
    | some _ => 1
    | none => 0
  (st.meta, st.preview, st.warningsCount + extra)

/-! ## Helper lemmas -/

theorem jsonSize_pos (c : Json) : 1 ≤ jsonSize c := by
  cases c <;> simp [jsonSize]

theorem jsonSizeList_pos (l : List Json) : 1 ≤ jsonSizeList l := by
  cases l with
  | nil => simp [jsonSizeList]
  | cons x r => simp only [jsonSizeList]; omega

theorem jsonSize_mem_list_lt {b : Json} {l : List Json} (h : b ∈ l) :
    jsonSize b < jsonSizeList l := by
  induction l with
  | nil => cases h
  | cons x r ih =>
    rcases List.mem_cons.mp h with rfl | h'
    · have := jsonSizeList_pos r
      simp only [jsonSizeList]
      omega
    · have := ih h'
      simp only [jsonSizeList]
      omega

theorem jsonSize_mem_fields_lt {kv : String × Json} {l : List (String × Json)}
    (h : kv ∈ l) : jsonSize kv.2 < jsonSizeFields l := by
  induction l with
  | nil => cases h
  | cons x r ih =>
    obtain ⟨k, v⟩ := x
    rcases List.mem_cons.mp h with rfl | h'
    · have := one_le_jsonSizeFields r
      simp only [jsonSizeFields]
      omega
    · have := ih h'
      simp only [jsonSizeFields]
      omega

/-- The fuel of `normCBCore` is irrelevant as long as it dominates the
value's size: the wrapper `_normalize_content_blocks` therefore computes
the unique fixpoint of the Python recursion. -/
theorem normCBCore_stable :
    ∀ (f1 : Nat) (c : Json) (f2 : Nat), jsonSize c ≤ f1 → jsonSize c ≤ f2 →
      normCBCore f1 c = normCBCore f2 c := by
  intro f1
  induction f1 with
  | zero =>
    intro c f2 h1 _
    have := jsonSize_pos c
    omega
  | succ f ih =>
    intro c f2 h1 h2
    have hp := jsonSize_pos c
    obtain ⟨f2', rfl⟩ : ∃ f2', f2 = f2' + 1 := ⟨f2 - 1, by omega⟩
    cases c with
    | null => rfl
    | bool b => rfl
    | num n => rfl
    | str s => rfl
    | obj kvs =>
      by_cases ht : (Json.obj kvs).hasKey "text" = true
      · simp [normCBCore, ht]
      · by_cases hc : (Json.obj kvs).hasKey "content" = true
        · have hlt := jsonSize_getD_lt kvs "content"
          simp only [jsonSize] at hlt h1 h2
          simp only [normCBCore, ht, hc, Bool.false_eq_true, if_false, if_true]
          exact ih _ f2' (by omega) (by omega)
        · simp [normCBCore, ht, hc]
    | arr blocks =>
      simp only [jsonSize] at h1 h2
      dsimp only [normCBCore]
      have hmap : blocks.filterMap (fun block =>
          match block with
          | .str s => some s
          | .obj kvs =>
            (match Json.getD (.obj kvs) "text" with
             | .null =>
               if (Json.obj kvs).hasKey "content" then
                 normCBCore f ((Json.obj kvs).getD "content")
               else none
             | v => some (pyStr v))
          | _ => none) =
        blocks.filterMap (fun block =>
          match block with
          | .str s => some s
          | .obj kvs =>
            (match Json.getD (.obj kvs) "text" with
             | .null =>
               if (Json.obj kvs).hasKey "content" then
                 normCBCore f2' ((Json.obj kvs).getD "content")
               else none
             | v => some (pyStr v))
          | _ => none) := by
        refine List.filterMap_congr ?_
        intro block hb
        have hbl := jsonSize_mem_list_lt hb
        cases block with
        | null => rfl
        | bool b => rfl
        | num n => rfl
        | str s => rfl
        | arr xs => rfl
        | obj kvs =>
          dsimp only
          cases hv : Json.getD (.obj kvs) "text" with
          | null =>
            by_cases hc : (Json.obj kvs).hasKey "content" = true
            · have hlt := jsonSize_getD_lt kvs "content"
              simp only [hc, if_true]
              exact ih _ f2' (by omega) (by omega)
            · simp [hc]
          | bool b => rfl
          | num n => rfl
          | str s => rfl
          | arr xs => rfl
          | obj kvs2 => rfl
      rw [hmap]

/-- The fuel of `pyStrCore` is irrelevant as long as it dominates the
value's size. -/
theorem pyStrCore_stable :
    ∀ (f1 : Nat) (c : Json) (mode : Bool) (f2 : Nat),
      jsonSize c ≤ f1 → jsonSize c ≤ f2 →
      pyStrCore f1 mode c = pyStrCore f2 mode c := by
  intro f1
  induction f1 with
  | zero =>
    intro c mode f2 h1 _
    have := jsonSize_pos c
    omega
  | succ f ih =>
    intro c mode f2 h1 h2
    have hp := jsonSize_pos c
    obtain ⟨f2', rfl⟩ : ∃ f2', f2 = f2' + 1 := ⟨f2 - 1, by omega⟩
    cases c with
    | null => rfl
    | bool b => cases b <;> rfl
    | num n => rfl
    | str s => rfl
    | arr xs =>
      simp only [jsonSize] at h1 h2
      dsimp only [pyStrCore]
      have hmap : xs.map (pyStrCore f true) = xs.map (pyStrCore f2' true) := by
        refine List.map_congr_left ?_
        intro x hx
        have := jsonSize_mem_list_lt hx
        exact ih x true f2' (by omega) (by omega)
      rw [hmap]
    | obj kvs =>
      simp only [jsonSize] at h1 h2
      dsimp only [pyStrCore]
      have hmap : kvs.map
          (fun kv => "'" ++ kv.1 ++ "': " ++ pyStrCore f true kv.2) =
          kvs.map (fun kv => "'" ++ kv.1 ++ "': " ++ pyStrCore f2' true kv.2) := by
        refine List.map_congr_left ?_
        intro kv hkv
        have := jsonSize_mem_fields_lt hkv
        rw [ih kv.2 true f2' (by omega) (by omega)]
      rw [hmap]

/-- The fuel of `jsonDumpsCore` is irrelevant as long as it dominates the
value's size. -/
theorem jsonDumpsCore_stable :
    ∀ (f1 : Nat) (c : Json) (level f2 : Nat),
      jsonSize c ≤ f1 → jsonSize c ≤ f2 →
      jsonDumpsCore f1 c level = jsonDumpsCore f2 c level := by
  intro f1
  induction f1 with
  | zero =>
    intro c level f2 h1 _
    have := jsonSize_pos c
    omega
  | succ f ih =>
    intro c level f2 h1 h2
    have hp := jsonSize_pos c
    obtain ⟨f2', rfl⟩ : ∃ f2', f2 = f2' + 1 := ⟨f2 - 1, by omega⟩
    cases c with
    | null => rfl
    | bool b => cases b <;> rfl
    | num n => rfl
    | str s => rfl
    | arr xs =>
      cases xs with
      | nil => rfl
      | cons x rest =>
        simp only [jsonSize] at h1 h2
        dsimp only [jsonDumpsCore]
        have hmap : (x :: rest).map (fun v => jsonDumpsCore f v (level + 1)) =
            (x :: rest).map (fun v => jsonDumpsCore f2' v (level + 1)) := by
          refine List.map_congr_left ?_
          intro v hv
          have := jsonSize_mem_list_lt hv
          exact ih v (level + 1) f2' (by omega) (by omega)
        rw [hmap]
    | obj kvs =>
      cases kvs with
      | nil => rfl
      | cons kv rest =>
        simp only [jsonSize] at h1 h2
        dsimp only [jsonDumpsCore]
        have hmap : (kv :: rest).map
            (fun kv => jsonQuote kv.1 ++ ": " ++ jsonDumpsCore f kv.2 (level + 1)) =
            (kv :: rest).map
            (fun kv => jsonQuote kv.1 ++ ": " ++ jsonDumpsCore f2' kv.2 (level + 1)) := by
          refine List.map_congr_left ?_
          intro kv' hkv
          have := jsonSize_mem_fields_lt hkv
          rw [ih kv'.2 (level + 1) f2' (by omega) (by omega)]
        rw [hmap]

theorem mem_addSeen (s : List String) (t : String) : t ∈ addSeen s t := by
  unfold addSeen
  split
  · assumption
  · exact List.mem_cons_self t s

theorem length_listModify (l : List Event) (i : Nat) (f : Event → Event) :
    (listModify l i f).length = l.length := by
  induction l generalizing i with
  | nil => rfl
  | cons e rest ih =>
    cases i with
    | zero => rfl
    | succ n => simp [listModify, ih]

theorem listModify_eq_set {l : List Event} {i : Nat} {a : Event}
    (f : Event → Event) (h : l.get? i = some a) :
    listModify l i f = l.set i (f a) := by
  induction l generalizing i with
  | nil => simp at h
  | cons e rest ih =>
    cases i with
    | zero =>
      simp only [List.get?] at h
      injection h with h
      subst h
      rfl
    | succ n =>
      simp only [List.get?] at h
      simp [listModify, List.set, ih h]

theorem mem_listModify {a : Event} {l : List Event} {i : Nat}
    {f : Event → Event} (h : a ∈ listModify l i f) :
    a ∈ l ∨ ∃ b, b ∈ l ∧ a = f b := by
  induction l generalizing i with
  | nil => simp [listModify] at h
  | cons e rest ih =>
    cases i with
    | zero =>
      simp only [listModify, List.mem_cons] at h
      rcases h with h | h
      · exact Or.inr ⟨e, List.mem_cons_self e rest, h⟩
      · exact Or.inl (List.mem_cons_of_mem e h)
    | succ n =>
      simp only [listModify, List.mem_cons] at h
      rcases h with h | h
      · exact Or.inl (h ▸ List.mem_cons_self e rest)
      · rcases ih h with h' | ⟨b, hb, hab⟩
        · exact Or.inl (List.mem_cons_of_mem e h')
        · exact Or.inr ⟨b, List.mem_cons_of_mem e hb, hab⟩

/-- `ReasoningEvent`s carry a non-empty summary list; other events are
unconstrained. -/
def reasoningNonEmpty : Event → Prop
  | .reasoning s _ _ => s ≠ []
  | _ => True

/-- How one loop iteration may change the event list: leave it unchanged,
append exactly one event (whose summary is non-empty if it is a
`ReasoningEvent`), or mutate one pending `ToolEvent` in place. -/
def EventsStep (old new : List Event) : Prop :=
  new = old ∨
  (∃ e, new = old ++ [e] ∧ reasoningNonEmpty e) ∨
  (∃ idx out ts ln, new = listModify old idx (applyOutput out ts ln))

theorem EventsStep.length {old new : List Event} (h : EventsStep old new) :
    new.length = old.length ∨ new.length = old.length + 1 := by
  rcases h with h | ⟨e, h, _⟩ | ⟨idx, out, ts, ln, h⟩
  · exact Or.inl (h ▸ rfl)
  · right
    rw [h, List.length_append]
    rfl
  · exact Or.inl (h ▸ length_listModify old idx _)

theorem applyOutput_reasoning (out : Option String) (ts : Option DateTime)
    (ln : Nat) (e : Event) (h : reasoningNonEmpty e) :
    reasoningNonEmpty (applyOutput out ts ln e) := by
  cases e <;> simp [applyOutput, reasoningNonEmpty] at h ⊢
  exact h

theorem EventsStep.preserve {old new : List Event} (h : EventsStep old new)
    (hold : ∀ e ∈ old, reasoningNonEmpty e) :
    ∀ e ∈ new, reasoningNonEmpty e := by
  rcases h with h | ⟨e, h, he⟩ | ⟨idx, out, ts, ln, h⟩
  · exact h ▸ hold
  · intro x hx
    rw [h] at hx
    rcases List.mem_append.mp hx with hx | hx
    · exact hold x hx
    · rcases List.mem_singleton.mp hx with rfl
      exact he
  · intro x hx
    rw [h] at hx
    rcases mem_listModify hx with hx | ⟨b, hb, rfl⟩
    · exact hold x hx
    · exact applyOutput_reasoning _ _ _ _ (hold b hb)

theorem eventsStep_handleSessionMeta (st : LoopState) (p : Json) :
    EventsStep st.events (handleSessionMeta st p).events := by
  left
  dsimp only [handleSessionMeta]
  split <;> rfl

theorem eventsStep_handleTurnContext (st : LoopState) (p : Json) :
    EventsStep st.events (handleTurnContext st p).events := by
  left
  dsimp only [handleTurnContext]
  split <;> rfl

theorem eventsStep_handleRIMessage (st : LoopState) (i : Nat)
    (ts : Option DateTime) (p : Json) :
    EventsStep st.events (handleRIMessage st i ts p).events := by
  dsimp only [handleRIMessage]
  repeat' split
  all_goals first
    | exact Or.inl rfl
    | exact Or.inr (Or.inl ⟨_, rfl, trivial⟩)

theorem eventsStep_handleRIFunctionCall (st : LoopState) (i : Nat)
    (ts : Option DateTime) (p : Json) :
    EventsStep st.events (handleRIFunctionCall st i ts p).events := by
  dsimp only [handleRIFunctionCall]
  exact Or.inr (Or.inl ⟨_, rfl, trivial⟩)

theorem eventsStep_handleRIFunctionCallOutput (st : LoopState) (i : Nat)
    (ts : Option DateTime) (p : Json) :
    EventsStep st.events (handleRIFunctionCallOutput st i ts p).events := by
  dsimp only [handleRIFunctionCallOutput]
  repeat' split
  all_goals first
    | exact Or.inr (Or.inr ⟨_, _, _, _, rfl⟩)
    | exact Or.inr (Or.inl ⟨_, rfl, trivial⟩)

theorem eventsStep_handleRIReasoning (st : LoopState) (i : Nat)
    (ts : Option DateTime) (p : Json) :
    EventsStep st.events (handleRIReasoning st i ts p).events := by
  dsimp only [handleRIReasoning]
  repeat' split
  all_goals first
    | exact Or.inl rfl
    | (rename_i h; exact Or.inr (Or.inl ⟨_, rfl, h⟩))

theorem eventsStep_handleResponseItemInner (st : LoopState) (i : Nat)
    (ts : Option DateTime) (p : Json) :
    EventsStep st.events (handleResponseItemInner st i ts p).events := by
  dsimp only [handleResponseItemInner]
  repeat' split
  all_goals first
    | exact Or.inl rfl
    | exact eventsStep_handleRIMessage st i ts p
    | exact eventsStep_handleRIFunctionCall st i ts p
    | exact eventsStep_handleRIFunctionCallOutput st i ts p
    | exact eventsStep_handleRIReasoning st i ts p

theorem eventsStep_handleResponseItem (st : LoopState) (i : Nat)
    (ts : Option DateTime) (p : Json) :
    EventsStep st.events (handleResponseItem st i ts p).events := by
  dsimp only [handleResponseItem]
  repeat' split
  all_goals first
    | exact eventsStep_handleResponseItemInner st i ts _
    | exact Or.inr (Or.inl ⟨_, rfl, trivial⟩)

theorem eventsStep_handleEventMsg (st : LoopState) (i : Nat)
    (ts : Option DateTime) (p : Json) :
    EventsStep st.events (handleEventMsg st i ts p).events := by
  dsimp only [handleEventMsg]
  repeat' split
  all_goals first
    | exact Or.inl rfl
    | exact Or.inr (Or.inl ⟨_, rfl, trivial⟩)
    | exact Or.inr (Or.inl ⟨_, rfl, List.cons_ne_nil _ _⟩)
    | (rename_i h; exact Or.inr (Or.inl ⟨_, rfl, h⟩))

/-- Master step lemma: each loop iteration leaves the event list unchanged,
appends exactly one event, or mutates one pending `ToolEvent` in place. -/
theorem eventsStep_processRecord (st : LoopState) (i : Nat)
    (r : Except String Json) :
    EventsStep st.events (processRecord st i r).events := by
  dsimp only [processRecord]
  repeat' split
  all_goals first
    | exact Or.inl rfl
    | exact Or.inr (Or.inl ⟨_, rfl, trivial⟩)
    | exact eventsStep_handleSessionMeta st _
    | exact eventsStep_handleTurnContext st _
    | exact eventsStep_handleResponseItem st i _ _
    | exact eventsStep_handleEventMsg st i _ _

theorem processRecord_events_length (st : LoopState) (i : Nat)
    (r : Except String Json) :
    (processRecord st i r).events.length = st.events.length ∨
    (processRecord st i r).events.length = st.events.length + 1 :=
  (eventsStep_processRecord st i r).length

/-- Number of loop iterations that leave the event list's length unchanged
(the lines that append no event), along the actual run from `st`. -/
def runLoopCount : LoopState → Nat → List (Except String Json) → Nat
  | _, _, [] => 0
  | st, i, r :: rest =>
    (if (processRecord st i r).events.length = st.events.length then 1 else 0) +
      runLoopCount (processRecord st i r) (i + 1) rest

/-- Number of lines of the stream that append no event when `parse_session`
processes it. -/
def nonEmittingCount (lines : List (Except String Json)) : Nat :=
  runLoopCount initLoopState 1 lines

theorem runLoop_length_add_count :
    ∀ (lines : List (Except String Json)) (st : LoopState) (i : Nat),
      (runLoop st i lines).events.length + runLoopCount st i lines =
        st.events.length + lines.length := by
  intro lines
  induction lines with
  | nil => intro st i; simp [runLoop, runLoopCount]
  | cons r rest ih =>
    intro st i
    simp only [runLoop, runLoopCount, List.length_cons]
    have hih := ih (processRecord st i r) (i + 1)
    rcases processRecord_events_length st i r with h | h
    · rw [if_pos h]
      omega
    · rw [if_neg (by omega)]
      omega

theorem runLoop_reasoning_invariant :
    ∀ (lines : List (Except String Json)) (st : LoopState) (i : Nat),
      (∀ e ∈ st.events, reasoningNonEmpty e) →
      ∀ e ∈ (runLoop st i lines).events, reasoningNonEmpty e := by
  intro lines
  induction lines with
  | nil => intro st i h; exact h
  | cons r rest ih =>
    intro st i h
    exact ih (processRecord st i r) (i + 1)
      ((eventsStep_processRecord st i r).preserve h)

theorem fastLoop_take :
    ∀ (lines : List (Except String Json)) (st : FastState) (i max_lines : Nat),
      fastLoop st i max_lines lines =
        fastLoop st i max_lines (lines.take (max_lines + 1 - i)) := by
  intro lines
  induction lines with
  | nil => intro st i m; simp
  | cons r rest ih =>
    intro st i m
    by_cases h : i > m
    · have hz : m + 1 - i = 0 := by omega
      rw [hz]
      simp only [List.take_zero]
      simp [fastLoop, h]
    · have hs : m + 1 - i = (m + 1 - (i + 1)) + 1 := by omega
      rw [hs]
      simp only [List.take_succ_cons]
      simp only [fastLoop, if_neg h]
      exact ih (fastStep st r) (i + 1) m

theorem processRecord_responseItem (st : LoopState) (i : Nat) (rec : Json)
    (h1 : rec.getD "type" = Json.str "response_item") :
    processRecord st i (.ok rec) =
      handleResponseItem st i (parse_timestamp (rec.getD "timestamp"))
        (_unwrap_payload (rec.getD "payload")) := by
  cases rec with
  | obj kvs =>
    dsimp only [processRecord]
    rw [h1]
    simp [jsonEqStr]
  | _ => simp [Json.getD] at h1

theorem processRecord_eventMsg (st : LoopState) (i : Nat) (rec : Json)
    (h1 : rec.getD "type" = Json.str "event_msg") :
    processRecord st i (.ok rec) =
      handleEventMsg st i (parse_timestamp (rec.getD "timestamp"))
        (_unwrap_payload (rec.getD "payload")) := by
  cases rec with
  | obj kvs =>
    dsimp only [processRecord]
    rw [h1]
    simp [jsonEqStr]
  | _ => simp [Json.getD] at h1

theorem processRecord_sessionMeta (st : LoopState) (i : Nat) (rec : Json)
    (h1 : rec.getD "type" = Json.str "session_meta")
    (h2 : (_unwrap_payload (rec.getD "payload")).isObj = true) :
    processRecord st i (.ok rec) =
      handleSessionMeta st (_unwrap_payload (rec.getD "payload")) := by
  cases rec with
  | obj kvs =>
    dsimp only [processRecord]
    rw [h1]
    simp [jsonEqStr, h2]
  | _ => simp [Json.getD] at h1

theorem processRecord_turnContext (st : LoopState) (i : Nat) (rec : Json)
    (h1 : rec.getD "type" = Json.str "turn_context")
    (h2 : (_unwrap_payload (rec.getD "payload")).isObj = true) :
    processRecord st i (.ok rec) =
      handleTurnContext st (_unwrap_payload (rec.getD "payload")) := by
  cases rec with
  | obj kvs =>
    dsimp only [processRecord]
    rw [h1]
    simp [jsonEqStr, h2]
  | _ => simp [Json.getD] at h1

theorem _unwrap_payload_obj (kvs : List (String × Json)) :
    ∃ kvs2, _unwrap_payload (Json.obj kvs) = Json.obj kvs2 := by
  dsimp only [_unwrap_payload]
  split
  · split
    · exact ⟨_, rfl⟩
    · exact ⟨kvs, rfl⟩
  · exact ⟨kvs, rfl⟩

theorem handleResponseItem_obj (st : LoopState) (i : Nat)
    (ts : Option DateTime) (kvs : List (String × Json)) :
    handleResponseItem st i ts (Json.obj kvs) =
      handleResponseItemInner st i ts (_unwrap_payload (Json.obj kvs)) := by
  obtain ⟨kvs2, h2⟩ := _unwrap_payload_obj kvs
  dsimp only [handleResponseItem]
  rw [h2]

theorem handleResponseItemInner_message (st : LoopState) (i : Nat)
    (ts : Option DateTime) (p : Json) (h : p.getD "type" = Json.str "message") :
    handleResponseItemInner st i ts p = handleRIMessage st i ts p := by
  dsimp only [handleResponseItemInner]
  rw [h]
  simp [jsonEqStr]

theorem handleResponseItemInner_functionCall (st : LoopState) (i : Nat)
    (ts : Option DateTime) (p : Json)
    (h : p.getD "type" = Json.str "function_call") :
    handleResponseItemInner st i ts p = handleRIFunctionCall st i ts p := by
  dsimp only [handleResponseItemInner]
  rw [h]
  simp [jsonEqStr]

theorem handleResponseItemInner_functionCallOutput (st : LoopState) (i : Nat)
    (ts : Option DateTime) (p : Json)
    (h : p.getD "type" = Json.str "function_call_output") :
    handleResponseItemInner st i ts p = handleRIFunctionCallOutput st i ts p := by
  dsimp only [handleResponseItemInner]
  rw [h]
  simp [jsonEqStr]

theorem handleResponseItemInner_reasoning (st : LoopState) (i : Nat)
    (ts : Option DateTime) (p : Json)
    (h : p.getD "type" = Json.str "reasoning") :
    handleResponseItemInner st i ts p = handleRIReasoning st i ts p := by
  dsimp only [handleResponseItemInner]
  rw [h]
  simp [jsonEqStr]

theorem handleRIMessage_emit (st : LoopState) (i : Nat) (ts : Option DateTime)
    (p : Json) (t : String) (h5 : _extract_message_text p = some t)
    (h6 : t ≠ "") :
    handleRIMessage st i ts p =
      { st with
        events := st.events ++ [.message (messageRole p) t "response_item" ts i]
        seen_message_texts :=
          if messageRole p = "user" then addSeen st.seen_message_texts t
          else st.seen_message_texts } := by
  dsimp only [handleRIMessage]
  rw [h5]
  simp [h6]

theorem handleEventMsg_userMessage (st : LoopState) (i : Nat)
    (ts : Option DateTime) (kvs : List (String × Json)) (t : String)
    (h1 : (Json.obj kvs).getD "type" = Json.str "user_message")
    (h2 : _extract_event_user_message (Json.obj kvs) = some t) :
    handleEventMsg st i ts (Json.obj kvs) =
      if t ≠ "" ∧ t ∉ st.seen_message_texts then
        { st with events := st.events ++ [.message "user" t "event_msg" ts i] }
      else st := by
  dsimp only [handleEventMsg]
  rw [h1, h2]
  simp [jsonEqStr]

theorem handleEventMsg_agentReasoning_str (st : LoopState) (i : Nat)
    (ts : Option DateTime) (kvs : List (String × Json)) (s : String)
    (h1 : (Json.obj kvs).getD "type" = Json.str "agent_reasoning")
    (h2 : (Json.obj kvs).getD "text" = Json.str s) :
    handleEventMsg st i ts (Json.obj kvs) =
      { st with events := st.events ++ [.reasoning [s] ts i] } := by
  dsimp only [handleEventMsg]
  rw [h1, h2]
  simp [jsonEqStr]

theorem handleEventMsg_agentReasoning_list (st : LoopState) (i : Nat)
    (ts : Option DateTime) (kvs : List (String × Json)) (items : List Json)
    (h1 : (Json.obj kvs).getD "type" = Json.str "agent_reasoning")
    (h2 : (Json.obj kvs).getD "text" = Json.arr items) :
    handleEventMsg st i ts (Json.obj kvs) =
      (if agentReasoningSummary items ≠ [] then
        { st with
          events := st.events ++ [.reasoning (agentReasoningSummary items) ts i] }
      else st) := by
  dsimp only [handleEventMsg]
  rw [h1, h2]
  simp [jsonEqStr]

theorem handleRIFunctionCallOutput_merge (st : LoopState) (i : Nat)
    (ts : Option DateTime) (p : Json) (idx : Nat)
    (h : callIdMatch st.tool_calls (coerce_text (p.getD "call_id")) = some idx) :
    handleRIFunctionCallOutput st i ts p =
      { st with
        events :=
          listModify st.events idx
            (applyOutput (_format_jsonish (p.getD "output")) ts i) } := by
  dsimp only [handleRIFunctionCallOutput]
  rw [h]

theorem handleRIFunctionCallOutput_orphan (st : LoopState) (i : Nat)
    (ts : Option DateTime) (p : Json)
    (h : callIdMatch st.tool_calls (coerce_text (p.getD "call_id")) = none) :
    handleRIFunctionCallOutput st i ts p =
      { st with
        warnings := st.warnings ++ [s!"line {i}: tool output without call"]
        events :=
          st.events ++
            [.tool none none (coerce_text (p.getD "call_id"))
              (_format_jsonish (p.getD "output")) ts i none none] } := by
  dsimp only [handleRIFunctionCallOutput]
  rw [h]

theorem handleRIReasoning_cases (st : LoopState) (i : Nat)
    (ts : Option DateTime) (p : Json) :
    handleRIReasoning st i ts p =
      (if _extract_reasoning_summary p ≠ [] then
        { st with
          events := st.events ++ [.reasoning (_extract_reasoning_summary p) ts i] }
      else st) := rfl

theorem handleSessionMeta_eq (st : LoopState) (p : Json) :
    handleSessionMeta st p =
      { st with
        session_id := coerce_text (p.getD "id")
        started_at := parse_timestamp (p.getD "timestamp")
        cwd := coerce_text (p.getD "cwd")
        originator := coerce_text (p.getD "originator")
        cli_version := coerce_text (p.getD "cli_version")
        repo_url :=
          if (p.getD "git").isObj then
            coerce_text ((p.getD "git").getD "repository_url")
          else st.repo_url
        branch :=
          if (p.getD "git").isObj then coerce_text ((p.getD "git").getD "branch")
          else st.branch
        commit_hash :=
          if (p.getD "git").isObj then
            (match coerce_text ((p.getD "git").getD "commit_hash") with
             | some c => some c
             | none => coerce_text ((p.getD "git").getD "commit"))
          else st.commit_hash } := by
  dsimp only [handleSessionMeta]
  by_cases h : (p.getD "git").isObj = true <;> simp [h]

theorem handleTurnContext_eq (st : LoopState) (p : Json) :
    handleTurnContext st p =
      { st with
        cwd := if st.cwd = none then coerce_text (p.getD "cwd") else st.cwd } := by
  dsimp only [handleTurnContext]
  by_cases h : st.cwd = none <;> simp [h]

/-- The eight metadata fields of C5 are unchanged between two states. -/
def metaFieldsUnchanged (st st2 : LoopState) : Prop :=
  st2.session_id = st.session_id ∧ st2.started_at = st.started_at ∧
  st2.cwd = st.cwd ∧ st2.repo_url = st.repo_url ∧ st2.branch = st.branch ∧
  st2.commit_hash = st.commit_hash ∧ st2.cli_version = st.cli_version ∧
  st2.originator = st.originator

theorem metaFieldsUnchanged_handleResponseItem (st : LoopState) (i : Nat)
    (ts : Option DateTime) (p : Json) :
    metaFieldsUnchanged st (handleResponseItem st i ts p) := by
  dsimp only [handleResponseItem, handleResponseItemInner, handleRIMessage,
    handleRIFunctionCall, handleRIFunctionCallOutput, handleRIReasoning,
    malformedResponseItem]
  repeat' split
  all_goals exact ⟨rfl, rfl, rfl, rfl, rfl, rfl, rfl, rfl⟩

theorem metaFieldsUnchanged_handleEventMsg (st : LoopState) (i : Nat)
    (ts : Option DateTime) (p : Json) :
    metaFieldsUnchanged st (handleEventMsg st i ts p) := by
  dsimp only [handleEventMsg]
  repeat' split
  all_goals exact ⟨rfl, rfl, rfl, rfl, rfl, rfl, rfl, rfl⟩

/-- The Python test guarding the `session_meta` branch, as a predicate on a
decoded line. -/
def isSessionMetaRecord (r : Except String Json) : Bool :=
  match r with
  | .ok rec =>
    rec.isObj && jsonEqStr (rec.getD "type") "session_meta" &&
      (_unwrap_payload (rec.getD "payload")).isObj
  | .error _ => false

/-- The Python test guarding the `turn_context` branch. -/
def isTurnContextRecord (r : Except String Json) : Bool :=
  match r with
  | .ok rec =>
    rec.isObj && jsonEqStr (rec.getD "type") "turn_context" &&
      (_unwrap_payload (rec.getD "payload")).isObj
  | .error _ => false

/-- Any line that does not hit the `session_meta` or `turn_context` branch
leaves all eight metadata fields untouched. -/
theorem processRecord_meta_unchanged (st : LoopState) (i : Nat)
    (r : Except String Json) (h1 : isSessionMetaRecord r = false)
    (h2 : isTurnContextRecord r = false) :
    metaFieldsUnchanged st (processRecord st i r) := by
  match r with
  | .error e => exact ⟨rfl, rfl, rfl, rfl, rfl, rfl, rfl, rfl⟩
  | .ok rec =>
    cases rec with
    | obj kvs =>
      have hn1 : ¬(jsonEqStr ((Json.obj kvs).getD "type") "session_meta" = true ∧
          (_unwrap_payload ((Json.obj kvs).getD "payload")).isObj = true) := by
        rintro ⟨ha, hb⟩
        simp only [isSessionMetaRecord] at h1
        rw [ha, hb] at h1
        simp [Json.isObj] at h1
      have hn2 : ¬(jsonEqStr ((Json.obj kvs).getD "type") "turn_context" = true ∧
          (_unwrap_payload ((Json.obj kvs).getD "payload")).isObj = true) := by
        rintro ⟨ha, hb⟩
        simp only [isTurnContextRecord] at h2
        rw [ha, hb] at h2
        simp [Json.isObj] at h2
      dsimp only [processRecord]
      rw [if_neg hn1, if_neg hn2]
      split
      · exact metaFieldsUnchanged_handleResponseItem st i _ _
      · split
        · exact metaFieldsUnchanged_handleEventMsg st i _ _
        · exact ⟨rfl, rfl, rfl, rfl, rfl, rfl, rfl, rfl⟩
    | _ => exact ⟨rfl, rfl, rfl, rfl, rfl, rfl, rfl, rfl⟩

theorem seen_handleEventMsg (st : LoopState) (i : Nat) (ts : Option DateTime)
    (p : Json) :
    (handleEventMsg st i ts p).seen_message_texts = st.seen_message_texts := by
  dsimp only [handleEventMsg]
  repeat' split
  all_goals rfl

/-! ## Concrete records used in examples -/

/-- Inner payload of a `response_item`/`message` user record. -/
def riUserPayload (t : String) : List (String × Json) :=
  [("type", .str "message"), ("role", .str "user"), ("content", .str t)]

/-- A `response_item`/`message` record with role `user` and text `t`. -/
def riUserRec (t : String) : Json :=
  .obj [("type", .str "response_item"), ("payload", .obj (riUserPayload t))]

/-- Inner payload of an `event_msg`/`user_message` record. -/
def evUserPayload (t : String) : List (String × Json) :=
  [("type", .str "user_message"), ("message", .str t)]

/-- An `event_msg`/`user_message` record with text `t`. -/
def evUserRec (t : String) : Json :=
  .obj [("type", .str "event_msg"), ("payload", .obj (evUserPayload t))]

/-- A `response_item`/`function_call` record with call id `c1`. -/
def fcRec : Json :=
  .obj [("type", .str "response_item"),
        ("payload", .obj [("type", .str "function_call"),
                          ("call_id", .str "c1"), ("name", .str "shell")])]

/-- Inner payload of a `response_item`/`function_call_output` record for
call id `c1`. -/
def fcoPayload (o : String) : List (String × Json) :=
  [("type", .str "function_call_output"), ("call_id", .str "c1"),
   ("output", .str o)]

/-- A `response_item`/`function_call_output` record for call id `c1`. -/
def fcoRec (o : String) : Json :=
  .obj [("type", .str "response_item"), ("payload", .obj (fcoPayload o))]

/-- A `session_meta` record whose payload carries only an id. -/
def smRec (idv : String) : Json :=
  .obj [("type", .str "session_meta"), ("payload", .obj [("id", .str idv)])]

/-- An `event_msg`/`agent_reasoning` record with a single-string text. -/
def arStrRec (s : String) : Json :=
  .obj [("type", .str "event_msg"),
        ("payload", .obj [("type", .str "agent_reasoning"), ("text", .str s)])]

/-- Number of `MessageEvent`s in an event list. -/
def messageCount (evs : List Event) : Nat :=
  (evs.filter (fun e =>
    match e with
    | .message _ _ _ _ _ => true
    | _ => false)).length

/-! ## Claim theorems -/

/-- C1: a `response_item`/`message` record with role `user` and non-empty
extracted text always emits a `MessageEvent` and records its exact text in
the de-duplication set; a later `event_msg`/`user_message` record with
non-empty extracted text emits a `MessageEvent` iff that exact text is not
in the de-duplication set; in particular `"hello"` via `response_item`
followed by `"hello"` via `event_msg` yields exactly one `MessageEvent`,
while a differing second text yields a second one. -/
theorem claim_C1_cross_channel_dedup :
    (∀ (st : LoopState) (i : Nat) (rec : Json) (kvs : List (String × Json))
        (t : String),
      rec.getD "type" = Json.str "response_item" →
      _unwrap_payload (rec.getD "payload") = Json.obj kvs →
      (_unwrap_payload (Json.obj kvs)).getD "type" = Json.str "message" →
      messageRole (_unwrap_payload (Json.obj kvs)) = "user" →
      _extract_message_text (_unwrap_payload (Json.obj kvs)) = some t →
      t ≠ "" →
      (processRecord st i (.ok rec)).events =
        st.events ++
          [.message "user" t "response_item"
            (parse_timestamp (rec.getD "timestamp")) i] ∧
      t ∈ (processRecord st i (.ok rec)).seen_message_texts) ∧
    (∀ (st : LoopState) (i : Nat) (rec : Json) (kvs : List (String × Json))
        (t : String),
      rec.getD "type" = Json.str "event_msg" →
      _unwrap_payload (rec.getD "payload") = Json.obj kvs →
      (Json.obj kvs).getD "type" = Json.str "user_message" →
      _extract_event_user_message (Json.obj kvs) = some t →
      t ≠ "" →
      (t ∉ st.seen_message_texts →
        (processRecord st i (.ok rec)).events =
          st.events ++
            [.message "user" t "event_msg"
              (parse_timestamp (rec.getD "timestamp")) i]) ∧
      (t ∈ st.seen_message_texts →
        (processRecord st i (.ok rec)).events = st.events)) ∧
    messageCount
      (runLoop initLoopState 1
        [.ok (riUserRec "hello"), .ok (evUserRec "hello")]).events = 1 ∧
    messageCount
      (runLoop initLoopState 1
        [.ok (riUserRec "hello"), .ok (evUserRec "hello world")]).events = 2 := by
  refine ⟨?_, ?_, rfl, rfl⟩
  · intro st i rec kvs t h1 h2 h3 h4 h5 h6
    rw [processRecord_responseItem st i rec h1, h2, handleResponseItem_obj,
      handleResponseItemInner_message _ _ _ _ h3,
      handleRIMessage_emit _ _ _ _ t h5 h6]
    constructor
    · simp [h4]
    · simp only [h4, if_pos]
      exact mem_addSeen st.seen_message_texts t
  · intro st i rec kvs t h1 h2 h3 h4 h5
    rw [processRecord_eventMsg st i rec h1, h2,
      handleEventMsg_userMessage st i _ kvs t h3 h4]
    constructor
    · intro hmem
      rw [if_pos ⟨h5, hmem⟩]
    · intro hmem
      rw [if_neg (fun hc => hc.2 hmem)]

/-- Witness for C1: the general clauses applied to the concrete `"hello"`
records at the initial state. -/
theorem claim_C1_cross_channel_dedup_witness :
    ((processRecord initLoopState 1 (.ok (riUserRec "hello"))).events =
        initLoopState.events ++
          [.message "user" "hello" "response_item" none 1] ∧
      "hello" ∈
        (processRecord initLoopState 1
          (.ok (riUserRec "hello"))).seen_message_texts) ∧
    (processRecord
        { initLoopState with seen_message_texts := ["hello"] } 2
        (.ok (evUserRec "hello"))).events =
      { initLoopState with seen_message_texts := ["hello"] }.events := by
  constructor
  · exact claim_C1_cross_channel_dedup.1 initLoopState 1 (riUserRec "hello")
      (riUserPayload "hello") "hello" rfl rfl rfl rfl rfl (by decide)
  · exact (claim_C1_cross_channel_dedup.2.1
      { initLoopState with seen_message_texts := ["hello"] } 2
      (evUserRec "hello") (evUserPayload "hello") "hello" rfl rfl rfl rfl
      (by decide)).2 (by decide)

/-- C2: a `function_call_output` record whose call id matches a pending
`ToolEvent` merges its output into that event in place (concatenating after
a present output with the separator, storing directly otherwise), stamping
the output timestamp and line, and appends no new event; a non-matching one
appends an orphaned `ToolEvent` with `name=None`, `arguments=None` carrying
only the output, plus a warning.  A `function_call` for `"c1"` followed by
two outputs for `"c1"` yields one `ToolEvent` whose output is
`first_output + "\n\n---\n\n" + second_output`. -/
theorem claim_C2_tool_output_merge :
    (∀ (st : LoopState) (i : Nat) (rec : Json) (kvs : List (String × Json))
        (idx : Nat) (name args cid old : Option String)
        (t : Option DateTime) (l : Nat) (ots : Option DateTime)
        (oln : Option Nat),
      rec.getD "type" = Json.str "response_item" →
      _unwrap_payload (rec.getD "payload") = Json.obj kvs →
      (_unwrap_payload (Json.obj kvs)).getD "type" =
        Json.str "function_call_output" →
      callIdMatch st.tool_calls
        (coerce_text ((_unwrap_payload (Json.obj kvs)).getD "call_id")) =
        some idx →
      st.events.get? idx = some (.tool name args cid old t l ots oln) →
      (processRecord st i (.ok rec)).events =
        st.events.set idx
          (.tool name args cid
            (mergedOutput old
              (_format_jsonish ((_unwrap_payload (Json.obj kvs)).getD "output")))
            t l (parse_timestamp (rec.getD "timestamp")) (some i)) ∧
      (processRecord st i (.ok rec)).events.length = st.events.length ∧
      (processRecord st i (.ok rec)).warnings = st.warnings) ∧
    (∀ (st : LoopState) (i : Nat) (rec : Json) (kvs : List (String × Json)),
      rec.getD "type" = Json.str "response_item" →
      _unwrap_payload (rec.getD "payload") = Json.obj kvs →
      (_unwrap_payload (Json.obj kvs)).getD "type" =
        Json.str "function_call_output" →
      callIdMatch st.tool_calls
        (coerce_text ((_unwrap_payload (Json.obj kvs)).getD "call_id")) =
        none →
      (processRecord st i (.ok rec)).events =
        st.events ++
          [.tool none none
            (coerce_text ((_unwrap_payload (Json.obj kvs)).getD "call_id"))
            (_format_jsonish ((_unwrap_payload (Json.obj kvs)).getD "output"))
            (parse_timestamp (rec.getD "timestamp")) i none none] ∧
      (processRecord st i (.ok rec)).warnings =
        st.warnings ++ [s!"line {i}: tool output without call"]) ∧
    (runLoop initLoopState 1
      [.ok fcRec, .ok (fcoRec "first out"), .ok (fcoRec "second out")]).events =
      [.tool (some "shell") none (some "c1")
        (some "first out\n\n---\n\nsecond out") none 1 none (some 3)] := by
  refine ⟨?_, ?_, rfl⟩
  · intro st i rec kvs idx name args cid old t l ots oln h1 h2 h3 h4 h5
    rw [processRecord_responseItem st i rec h1, h2, handleResponseItem_obj,
      handleResponseItemInner_functionCallOutput _ _ _ _ h3,
      handleRIFunctionCallOutput_merge _ _ _ _ idx h4]
    refine ⟨?_, ?_, rfl⟩
    · show listModify st.events idx _ = _
      rw [listModify_eq_set _ h5]
      rfl
    · show (listModify st.events idx _).length = _
      exact length_listModify st.events idx _
  · intro st i rec kvs h1 h2 h3 h4
    rw [processRecord_responseItem st i rec h1, h2, handleResponseItem_obj,
      handleResponseItemInner_functionCallOutput _ _ _ _ h3,
      handleRIFunctionCallOutput_orphan _ _ _ _ h4]
    exact ⟨rfl, rfl⟩

/-- Witness for C2: both general clauses applied to concrete records — a
matching output merged into a pending `ToolEvent` at a concrete state, and
an orphaned output appended at the initial state. -/
theorem claim_C2_tool_output_merge_witness :
    (processRecord
        { initLoopState with
          events := [.tool (some "shell") none (some "c1") none none 1 none none]
          tool_calls := [("c1", 0)] } 2
        (.ok (fcoRec "first out"))).events =
      [.tool (some "shell") none (some "c1") (some "first out") none 1 none
        (some 2)] ∧
    (processRecord initLoopState 1 (.ok (fcoRec "zzz"))).events =
      [.tool none none (some "c1") (some "zzz") none 1 none none] ∧
    (processRecord initLoopState 1 (.ok (fcoRec "zzz"))).warnings =
      ["line 1: tool output without call"] := by
  refine ⟨?_, ?_, ?_⟩
  · have h := (claim_C2_tool_output_merge.1
      { initLoopState with
        events := [.tool (some "shell") none (some "c1") none none 1 none none]
        tool_calls := [("c1", 0)] } 2
      (fcoRec "first out") (fcoPayload "first out") 0 (some "shell") none
      (some "c1") none none 1 none none rfl rfl rfl rfl rfl).1
    rw [h]
    rfl
  · have h := (claim_C2_tool_output_merge.2.1 initLoopState 1 (fcoRec "zzz")
      (fcoPayload "zzz") rfl rfl rfl rfl).1
    rw [h]
    rfl
  · have h := (claim_C2_tool_output_merge.2.1 initLoopState 1 (fcoRec "zzz")
      (fcoPayload "zzz") rfl rfl rfl rfl).2
    rw [h]
    rfl

/-- Modelled from the spec's words for the C3 accounting (a definition
following the claim's enumeration, to be compared with the code): a
"metadata-only record" is one of type `session_meta` or `turn_context`, or
a `response_item` whose (double-unwrapped) payload has inner type
`ghost_snapshot`. -/
def isMetadataOnlyRecord (r : Except String Json) : Bool :=
  match r with
  | .error _ => false
  | .ok rec =>
    rec.isObj &&
      (jsonEqStr (rec.getD "type") "session_meta" ||
       jsonEqStr (rec.getD "type") "turn_context" ||
       (jsonEqStr (rec.getD "type") "response_item" &&
        jsonEqStr
          ((_unwrap_payload (_unwrap_payload (rec.getD "payload"))).getD "type")
          "ghost_snapshot"))

/-- Modelled from the spec's words for the C3 accounting (generously): an
"ignored-type record" is a decoded record that is not a mapping, has an
unknown top-level type, or is a `response_item`/`event_msg` whose inner
payload type is not one of the handled inner types. -/
def isIgnoredTypeRecord (r : Except String Json) : Bool :=
  match r with
  | .error _ => false
  | .ok rec =>
    match rec with
    | .obj _ =>
      let rt := rec.getD "type"
      if jsonEqStr rt "session_meta" || jsonEqStr rt "turn_context" then false
      else if jsonEqStr rt "response_item" then
        let p := _unwrap_payload (_unwrap_payload (rec.getD "payload"))
        p.isObj &&
          !(jsonEqStr (p.getD "type") "message" ||
            jsonEqStr (p.getD "type") "function_call" ||
            jsonEqStr (p.getD "type") "function_call_output" ||
            jsonEqStr (p.getD "type") "reasoning" ||
            jsonEqStr (p.getD "type") "ghost_snapshot")
      else if jsonEqStr rt "event_msg" then
        let p := _unwrap_payload (rec.getD "payload")
        !p.isObj ||
          !(jsonEqStr (p.getD "type") "user_message" ||
            jsonEqStr (p.getD "type") "agent_reasoning")
      else true
    | _ => true

/-- Number of metadata-only records of a stream, per the spec's words. -/
def countMetadataOnly (lines : List (Except String Json)) : Nat :=
  (lines.filter isMetadataOnlyRecord).length

/-- Number of ignored-type records of a stream, per the spec's words. -/
def countIgnoredType (lines : List (Except String Json)) : Nat :=
  (lines.filter isIgnoredTypeRecord).length

/-- The two-line stream refuting C3: a `function_call` followed by its
matching `function_call_output`. -/
def c3Lines : List (Except String Json) := [.ok fcRec, .ok (fcoRec "done")]

/-- Counterexample to C3: on a `function_call` followed by its matching
`function_call_output`, the output line merges into the existing
`ToolEvent` and appends no event, so events (1) plus metadata-only records
(0) plus ignored-type records (0) is 1, not the 2 input lines. -/
theorem claim_C3_line_accounting_counterexample :
    (parse_session ["f.jsonl"] c3Lines none).events.length = 1 ∧
    countMetadataOnly c3Lines = 0 ∧
    countIgnoredType c3Lines = 0 ∧
    c3Lines.length = 2 ∧
    ¬((parse_session ["f.jsonl"] c3Lines none).events.length +
        countMetadataOnly c3Lines + countIgnoredType c3Lines =
      c3Lines.length) :=
  ⟨rfl, rfl, rfl, rfl, by decide⟩

/-- C3 (amended): every line appends at most one event, and the number of
events in the resulting `Session` plus the number of lines that append no
event (metadata records, ignored or non-mapping records, merged tool
outputs, and suppressed duplicate or empty payloads) equals the number of
input lines — every line is accounted for exactly once. -/
theorem claim_C3_line_accounting_amended :
    (∀ (parts : List String) (lines : List (Except String Json))
        (err : Option String),
      (parse_session parts lines err).events.length + nonEmittingCount lines =
        lines.length) ∧
    (∀ (st : LoopState) (i : Nat) (r : Except String Json),
      (processRecord st i r).events.length = st.events.length ∨
      (processRecord st i r).events.length = st.events.length + 1) := by
  constructor
  · intro parts lines err
    have h := runLoop_length_add_count lines initLoopState 1
    have he : (parse_session parts lines err).events =
        (runLoop initLoopState 1 lines).events := rfl
    rw [he]
    simpa [nonEmittingCount, initLoopState] using h
  · exact processRecord_events_length

/-- C4: a line whose JSON decoding fails always yields one warning
`"line <n>: invalid json"` and one `MalformedEvent` at line `<n>`, the loop
continues with the subsequent lines, and (the parser being a total
function) the failure never propagates; concretely, a bad first line
followed by a valid user message yields exactly that warning, the
`MalformedEvent` at line 1, and the message at line 2. -/
theorem claim_C4_invalid_json_line :
    (∀ (st : LoopState) (i : Nat) (e : String),
      processRecord st i (.error e) =
        { st with
          warnings := st.warnings ++ [s!"line {i}: invalid json"]
          events :=
            st.events ++ [.malformed s!"Invalid JSON at line {i}" none i] }) ∧
    (∀ (st : LoopState) (i : Nat) (e : String)
        (rest : List (Except String Json)),
      runLoop st i (.error e :: rest) =
        runLoop (processRecord st i (.error e)) (i + 1) rest) ∧
    (parse_session ["f.jsonl"] [.error "Expecting value", .ok (riUserRec "hello")]
        none).parse_warnings =
      ["line 1: invalid json", "session_meta missing"] ∧
    (parse_session ["f.jsonl"] [.error "Expecting value", .ok (riUserRec "hello")]
        none).events =
      [.malformed "Invalid JSON at line 1" none 1,
       .message "user" "hello" "response_item" none 2] := by
  exact ⟨fun st i e => rfl, fun st i e rest => rfl, rfl, rfl⟩

/-- Counterexample to C5: the metadata fields are not write-once — a second
`session_meta` record overwrites the session id that the first one set. -/
theorem claim_C5_metadata_once_counterexample :
    (parse_session ["f.jsonl"] [.ok (smRec "a")] none).session_id = some "a" ∧
    (parse_session ["f.jsonl"] [.ok (smRec "a"), .ok (smRec "b")]
        none).session_id = some "b" ∧
    some "b" ≠ some "a" :=
  ⟨rfl, rfl, by decide⟩

/-- C5 (amended): every `session_meta` record (re)sets the metadata fields
from its payload — a later `session_meta` overwrites an earlier one, git
sub-fields only when `git` is a mapping; a `turn_context` record may
backfill only `cwd` and only if `cwd` is still unset; any other line leaves
all eight metadata fields unchanged. -/
theorem claim_C5_metadata_updates_amended :
    (∀ (st : LoopState) (i : Nat) (rec : Json) (kvs : List (String × Json)),
      rec.getD "type" = Json.str "session_meta" →
      _unwrap_payload (rec.getD "payload") = Json.obj kvs →
      processRecord st i (.ok rec) =
        { st with
          session_id := coerce_text ((Json.obj kvs).getD "id")
          started_at := parse_timestamp ((Json.obj kvs).getD "timestamp")
          cwd := coerce_text ((Json.obj kvs).getD "cwd")
          originator := coerce_text ((Json.obj kvs).getD "originator")
          cli_version := coerce_text ((Json.obj kvs).getD "cli_version")
          repo_url :=
            if ((Json.obj kvs).getD "git").isObj then
              coerce_text (((Json.obj kvs).getD "git").getD "repository_url")
            else st.repo_url
          branch :=
            if ((Json.obj kvs).getD "git").isObj then
              coerce_text (((Json.obj kvs).getD "git").getD "branch")
            else st.branch
          commit_hash :=
            if ((Json.obj kvs).getD "git").isObj then
              (match coerce_text (((Json.obj kvs).getD "git").getD "commit_hash") with
               | some c => some c
               | none => coerce_text (((Json.obj kvs).getD "git").getD "commit"))
            else st.commit_hash }) ∧
    (∀ (st : LoopState) (i : Nat) (rec : Json) (kvs : List (String × Json)),
      rec.getD "type" = Json.str "turn_context" →
      _unwrap_payload (rec.getD "payload") = Json.obj kvs →
      processRecord st i (.ok rec) =
        { st with
          cwd :=
            if st.cwd = none then coerce_text ((Json.obj kvs).getD "cwd")
            else st.cwd }) ∧
    (∀ (st : LoopState) (i : Nat) (r : Except String Json),
      isSessionMetaRecord r = false → isTurnContextRecord r = false →
      metaFieldsUnchanged st (processRecord st i r)) := by
  refine ⟨?_, ?_, processRecord_meta_unchanged⟩
  · intro st i rec kvs h1 h2
    rw [processRecord_sessionMeta st i rec h1 (by rw [h2]; rfl), h2,
      handleSessionMeta_eq]
  · intro st i rec kvs h1 h2
    rw [processRecord_turnContext st i rec h1 (by rw [h2]; rfl), h2,
      handleTurnContext_eq]

/-- Witness for C5 (amended): a second concrete `session_meta` record
overwrites a previously set session id, a `turn_context` backfills an unset
`cwd`, and a user-message record leaves the metadata unchanged. -/
theorem claim_C5_metadata_updates_amended_witness :
    processRecord { initLoopState with session_id := some "a" } 2
        (.ok (smRec "b")) =
      { initLoopState with session_id := some "b" } ∧
    processRecord initLoopState 1
        (.ok (.obj [("type", .str "turn_context"),
                    ("payload", .obj [("cwd", .str "/home")])])) =
      { initLoopState with cwd := some "/home" } ∧
    metaFieldsUnchanged initLoopState
      (processRecord initLoopState 1 (.ok (riUserRec "hello"))) := by
  refine ⟨?_, ?_, ?_⟩
  · have h := claim_C5_metadata_updates_amended.1
      { initLoopState with session_id := some "a" } 2 (smRec "b")
      [("id", Json.str "b")] rfl rfl
    rw [h]
    rfl
  · have h := claim_C5_metadata_updates_amended.2.1 initLoopState 1
      (.obj [("type", .str "turn_context"),
             ("payload", .obj [("cwd", .str "/home")])])
      [("cwd", Json.str "/home")] rfl rfl
    rw [h]
    rfl
  · exact claim_C5_metadata_updates_amended.2.2 initLoopState 1
      (.ok (riUserRec "hello")) rfl rfl

/-- Counterexample to C6: an `event_msg`/`agent_reasoning` record whose
`text` is the empty string (not non-empty) still appends a
`ReasoningEvent`, with summary `[""]` — the single-string path has no
non-emptiness check. -/
theorem claim_C6_reasoning_nonempty_counterexample :
    (runLoop initLoopState 1 [.ok (arStrRec "")]).events =
      [.reasoning [""] none 1] :=
  rfl

/-- C6 (amended): a `response_item`/`reasoning` record produces an event
only when the extracted summary fragment list is non-empty; an
`event_msg`/`agent_reasoning` whose text is a list keeps only truthy items
and emits only when at least one remains; but when the text is a single
string a `ReasoningEvent` is appended even if the string is empty (summary
`[text]`).  Every appended `ReasoningEvent` has a non-empty summary list,
though its fragments may be empty strings. -/
theorem claim_C6_reasoning_nonempty_amended :
    (∀ (st : LoopState) (i : Nat) (rec : Json) (kvs : List (String × Json))
        (s : String),
      rec.getD "type" = Json.str "event_msg" →
      _unwrap_payload (rec.getD "payload") = Json.obj kvs →
      (Json.obj kvs).getD "type" = Json.str "agent_reasoning" →
      (Json.obj kvs).getD "text" = Json.str s →
      (processRecord st i (.ok rec)).events =
        st.events ++
          [.reasoning [s] (parse_timestamp (rec.getD "timestamp")) i]) ∧
    (∀ (st : LoopState) (i : Nat) (rec : Json) (kvs : List (String × Json))
        (items : List Json),
      rec.getD "type" = Json.str "event_msg" →
      _unwrap_payload (rec.getD "payload") = Json.obj kvs →
      (Json.obj kvs).getD "type" = Json.str "agent_reasoning" →
      (Json.obj kvs).getD "text" = Json.arr items →
      (agentReasoningSummary items ≠ [] →
        (processRecord st i (.ok rec)).events =
          st.events ++
            [.reasoning (agentReasoningSummary items)
              (parse_timestamp (rec.getD "timestamp")) i]) ∧
      (agentReasoningSummary items = [] →
        (processRecord st i (.ok rec)).events = st.events)) ∧
    (∀ (st : LoopState) (i : Nat) (rec : Json) (kvs : List (String × Json)),
      rec.getD "type" = Json.str "response_item" →
      _unwrap_payload (rec.getD "payload") = Json.obj kvs →
      (_unwrap_payload (Json.obj kvs)).getD "type" = Json.str "reasoning" →
      (_extract_reasoning_summary (_unwrap_payload (Json.obj kvs)) ≠ [] →
        (processRecord st i (.ok rec)).events =
          st.events ++
            [.reasoning (_extract_reasoning_summary (_unwrap_payload (Json.obj kvs)))
              (parse_timestamp (rec.getD "timestamp")) i]) ∧
      (_extract_reasoning_summary (_unwrap_payload (Json.obj kvs)) = [] →
        (processRecord st i (.ok rec)).events = st.events)) ∧
    (∀ (parts : List String) (lines : List (Except String Json))
        (err : Option String),
      ∀ e ∈ (parse_session parts lines err).events, reasoningNonEmpty e) := by
  refine ⟨?_, ?_, ?_, ?_⟩
  · intro st i rec kvs s h1 h2 h3 h4
    rw [processRecord_eventMsg st i rec h1, h2,
      handleEventMsg_agentReasoning_str st i _ kvs s h3 h4]
  · intro st i rec kvs items h1 h2 h3 h4
    rw [processRecord_eventMsg st i rec h1, h2,
      handleEventMsg_agentReasoning_list st i _ kvs items h3 h4]
    constructor
    · intro hne
      rw [if_pos hne]
    · intro heq
      rw [if_neg (by simp [heq])]
  · intro st i rec kvs h1 h2 h3
    rw [processRecord_responseItem st i rec h1, h2, handleResponseItem_obj,
      handleResponseItemInner_reasoning _ _ _ _ h3, handleRIReasoning_cases]
    constructor
    · intro hne
      rw [if_pos hne]
    · intro heq
      rw [if_neg (by simp [heq])]
  · intro parts lines err
    have he : (parse_session parts lines err).events =
        (runLoop initLoopState 1 lines).events := rfl
    rw [he]
    exact runLoop_reasoning_invariant lines initLoopState 1
      (by intro e he'; simp [initLoopState] at he')

/-- Witness for C6 (amended): the single-string clause applied to the
concrete empty-string record, the list clause to a concrete all-falsy list,
and the `response_item` clause to a reasoning record with no summary. -/
theorem claim_C6_reasoning_nonempty_amended_witness :
    (processRecord initLoopState 1 (.ok (arStrRec ""))).events =
      initLoopState.events ++ [.reasoning [""] none 1] ∧
    (processRecord initLoopState 1
        (.ok (.obj [("type", .str "event_msg"),
                    ("payload", .obj [("type", .str "agent_reasoning"),
                                      ("text", .arr [.str "", .null])])]))).events =
      initLoopState.events ∧
    (processRecord initLoopState 1
        (.ok (.obj [("type", .str "response_item"),
                    ("payload", .obj [("type", .str "reasoning")])]))).events =
      initLoopState.events := by
  refine ⟨?_, ?_, ?_⟩
  · exact claim_C6_reasoning_nonempty_amended.1 initLoopState 1 (arStrRec "")
      [("type", .str "agent_reasoning"), ("text", .str "")] "" rfl rfl rfl rfl
  · exact (claim_C6_reasoning_nonempty_amended.2.1 initLoopState 1
      (.obj [("type", .str "event_msg"),
             ("payload", .obj [("type", .str "agent_reasoning"),
                               ("text", .arr [.str "", .null])])])
      [("type", .str "agent_reasoning"), ("text", .arr [.str "", .null])]
      [.str "", .null] rfl rfl rfl rfl).2 rfl
  · exact (claim_C6_reasoning_nonempty_amended.2.2.1 initLoopState 1
      (.obj [("type", .str "response_item"),
             ("payload", .obj [("type", .str "reasoning")])])
      [("type", .str "reasoning")] rfl rfl rfl).2 rfl

/-- C7: an I/O failure after the file was opened (modelled by the record
stream ending at the failed read, with the error message delivered to the
`except OSError` handler) stops further record processing, appends one
`failed to read file` warning before the post-pass warnings, and returns
the `Session` built from the records read before the failure: every field
other than the warning list equals that of a clean parse of the same
records.  The parser is a total function, so the error never propagates. -/
theorem claim_C7_read_failure_partial_session :
    ∀ (parts : List String) (lines : List (Except String Json)) (msg : String),
      (parse_session parts lines (some msg)).events =
        (parse_session parts lines none).events ∧
      (parse_session parts lines (some msg)).session_id =
        (parse_session parts lines none).session_id ∧
      (parse_session parts lines (some msg)).started_at =
        (parse_session parts lines none).started_at ∧
      (parse_session parts lines (some msg)).cwd =
        (parse_session parts lines none).cwd ∧
      (parse_session parts lines (some msg)).repo_url =
        (parse_session parts lines none).repo_url ∧
      (parse_session parts lines (some msg)).branch =
        (parse_session parts lines none).branch ∧
      (parse_session parts lines (some msg)).commit_hash =
        (parse_session parts lines none).commit_hash ∧
      (parse_session parts lines (some msg)).cli_version =
        (parse_session parts lines none).cli_version ∧
      (parse_session parts lines (some msg)).originator =
        (parse_session parts lines none).originator ∧
      (parse_session parts lines (some msg)).ghost_commit =
        (parse_session parts lines none).ghost_commit ∧
      (parse_session parts lines (some msg)).parse_warnings =
        (runLoop initLoopState 1 lines).warnings ++
          [s!"failed to read file: {msg}"] ++
          (if (runLoop initLoopState 1 lines).session_id = none then
            ["session_meta missing"]
          else []) := by
  intro parts lines msg
  refine ⟨rfl, rfl, rfl, rfl, rfl, rfl, rfl, rfl, rfl, rfl, ?_⟩
  by_cases h : (runLoop initLoopState 1 lines).session_id = none
  · simp [parse_session, h]
  · simp [parse_session, h]

/-- C8: when the loop recovered no start timestamp, `parse_session` derives
one from the path-embedded `YYYY/MM/DD` segments, whose month and day are
range-checked 1–12 and 1–31, and an invalid calendar date leaves the
timestamp unset instead of raising; concretely, a path under
`2024/03/07` with no `session_meta` in the content yields the naive
datetime 2024-03-07T00:00:00 plus a `"session_meta missing"` warning, and
a path under `2023/02/31` leaves the timestamp unset. -/
theorem claim_C8_path_date_fallback :
    (∀ (parts : List String) (lines : List (Except String Json))
        (err : Option String),
      (runLoop initLoopState 1 lines).started_at = none →
      (parse_session parts lines err).started_at =
        (match parse_date_from_path parts with
         | some (y, m, d) => pyDatetime y m d
         | none => none)) ∧
    (∀ (parts : List String) (y m d : Int),
      parse_date_from_path parts = some (y, m, d) →
      1 ≤ m ∧ m ≤ 12 ∧ 1 ≤ d ∧ d ≤ 31) ∧
    (parse_session ["sessions", "2024", "03", "07", "rollout-x.jsonl"]
        [.ok (evUserRec "hi")] none).started_at =
      some ⟨2024, 3, 7, 0, 0, 0, 0, none⟩ ∧
    (parse_session ["sessions", "2024", "03", "07", "rollout-x.jsonl"]
        [.ok (evUserRec "hi")] none).parse_warnings =
      ["session_meta missing"] ∧
    (parse_session ["sessions", "2023", "02", "31", "f.jsonl"] [] none).started_at =
      none := by
  refine ⟨?_, ?_, rfl, rfl, rfl⟩
  · intro parts lines err h
    show (match (runLoop initLoopState 1 lines).started_at with
          | some t => some t
          | none =>
            match parse_date_from_path parts with
            | some (y, m, d) => pyDatetime y m d
            | none => none) = _
    rw [h]
  · intro parts y m d h
    dsimp only [parse_date_from_path] at h
    split at h
    · exact absurd h (by simp)
    · split at h
      · split at h
        · split at h
          · next hcond =>
            simp only [Option.some.injEq, Prod.mk.injEq] at h
            obtain ⟨-, rfl, rfl⟩ := h
            exact ⟨hcond.1, hcond.2.1, hcond.2.2.1, hcond.2.2.2⟩
          · exact absurd h (by simp)
        · exact absurd h (by simp)
      · exact absurd h (by simp)

/-- Witness for C8: the fallback clause applied at the concrete
`2024/03/07` path with an empty stream, and the range clause at the
concrete parse of that path. -/
theorem claim_C8_path_date_fallback_witness :
    (parse_session ["sessions", "2024", "03", "07", "rollout-x.jsonl"] [] none).started_at =
      (match parse_date_from_path ["sessions", "2024", "03", "07", "rollout-x.jsonl"] with
       | some (y, m, d) => pyDatetime y m d
       | none => none) ∧
    (1 ≤ (3 : Int) ∧ (3 : Int) ≤ 12 ∧ 1 ≤ (7 : Int) ∧ (7 : Int) ≤ 31) := by
  constructor
  · exact claim_C8_path_date_fallback.1
      ["sessions", "2024", "03", "07", "rollout-x.jsonl"] [] none rfl
  · exact claim_C8_path_date_fallback.2.1
      ["sessions", "2024", "03", "07", "rollout-x.jsonl"] 2024 3 7 rfl

/-- The 600-line stream of the fast-scan bound example: 549 skipped lines,
the only `session_meta` at line 550, then 50 more skipped lines. -/
def c9Lines : List (Except String Json) :=
  List.replicate 549 (.ok (Json.num 0)) ++ [.ok (smRec "s")] ++
    List.replicate 50 (.ok (Json.num 0))

set_option maxRecDepth 8000 in
/-- Evaluation of the fast scan on the concrete 600-line stream. -/
theorem c9_concrete_eval :
    extract_metadata_and_preview_fast c9Lines 500 none =
      (initFastMeta, none, 0) := rfl

/-- C9: the fast scan processes no line past `max_lines` — its whole result
depends only on the first `max_lines` lines — and on a 600-line file whose
only `session_meta` sits at line 550, with `max_lines = 500`, every
metadata field stays unset, the preview stays unset and the warning count
stays 0. -/
theorem claim_C9_fast_scan_bound :
    (∀ (lines : List (Except String Json)) (max_lines : Nat)
        (err : Option String),
      extract_metadata_and_preview_fast lines max_lines err =
        extract_metadata_and_preview_fast (lines.take max_lines) max_lines err) ∧
    extract_metadata_and_preview_fast c9Lines 500 none =
      (initFastMeta, none, 0) := by
  constructor
  · intro lines max_lines err
    dsimp only [extract_metadata_and_preview_fast]
    rw [fastLoop_take lines initFastState 1 max_lines, Nat.add_sub_cancel]
  · exact c9_concrete_eval

/-- C10: the de-duplication set is populated only by the `response_item`
channel — an `event_msg` record never changes it — so two identical
non-empty `event_msg` user messages (with no prior `response_item` of that
text) both emit a `MessageEvent`, and a `response_item` user message is
emitted even when its text is already in the de-duplication set (an
`event_msg` never suppresses it). -/
theorem claim_C10_dedup_set_response_item_only :
    (∀ (st : LoopState) (i : Nat) (rec : Json),
      rec.getD "type" = Json.str "event_msg" →
      (processRecord st i (.ok rec)).seen_message_texts =
        st.seen_message_texts) ∧
    messageCount
      (runLoop initLoopState 1
        [.ok (evUserRec "hi"), .ok (evUserRec "hi")]).events = 2 ∧
    (∀ (st : LoopState) (i : Nat) (rec : Json) (kvs : List (String × Json))
        (t : String),
      rec.getD "type" = Json.str "response_item" →
      _unwrap_payload (rec.getD "payload") = Json.obj kvs →
      (_unwrap_payload (Json.obj kvs)).getD "type" = Json.str "message" →
      messageRole (_unwrap_payload (Json.obj kvs)) = "user" →
      _extract_message_text (_unwrap_payload (Json.obj kvs)) = some t →
      t ≠ "" →
      t ∈ st.seen_message_texts →
      (processRecord st i (.ok rec)).events =
        st.events ++
          [.message "user" t "response_item"
            (parse_timestamp (rec.getD "timestamp")) i]) := by
  refine ⟨?_, rfl, ?_⟩
  · intro st i rec h1
    rw [processRecord_eventMsg st i rec h1]
    exact seen_handleEventMsg st i _ _
  · intro st i rec kvs t h1 h2 h3 h4 h5 h6 hmem
    rw [processRecord_responseItem st i rec h1, h2, handleResponseItem_obj,
      handleResponseItemInner_message _ _ _ _ h3,
      handleRIMessage_emit _ _ _ _ t h5 h6]
    simp [h4]

/-- Witness for C10: the `event_msg` clause leaves a concrete non-empty
de-duplication set unchanged, and the `response_item` clause emits even
though `"hello"` is already in the set. -/
theorem claim_C10_dedup_set_response_item_only_witness :
    (processRecord { initLoopState with seen_message_texts := ["hello"] } 1
        (.ok (evUserRec "hello"))).seen_message_texts = ["hello"] ∧
    (processRecord { initLoopState with seen_message_texts := ["hello"] } 2
        (.ok (riUserRec "hello"))).events =
      [.message "user" "hello" "response_item" none 2] := by
  constructor
  · exact claim_C10_dedup_set_response_item_only.1
      { initLoopState with seen_message_texts := ["hello"] } 1
      (evUserRec "hello") rfl
  · have h := claim_C10_dedup_set_response_item_only.2.2
      { initLoopState with seen_message_texts := ["hello"] } 2
      (riUserRec "hello") (riUserPayload "hello") "hello" rfl rfl rfl rfl rfl
      (by decide) (by decide)
    rw [h]
    rfl

end Codex2md
